import Mathlib

/-
Verification development for the ouichefs snapshotting block store.

The C sources are shallowly embedded as Lean functions over explicit state
records.  Machine integers become Nat with explicit reductions modulo 2^8
(the on-disk refcount bytes) and 2^32 (the superblock counters) at the
update sites where the C code performs fixed-width arithmetic.  Buffered
block reads (sb_bread) are modelled by a per-block success oracle readOk;
all claims about successful paths hypothesise that the relevant reads
succeed.  The content of a data block is modelled as a total map from slot
index to value: for raw data blocks the slot is the byte offset, for index
blocks the slot is the 32-bit entry index (little-endian byte packing is a
bijection and no claim depends on the packing itself).
-/

/-! Constants from ouichefs.h and errno values used by the sources. -/

def OUICHEFS_BLOCK_SIZE : Nat := 4096

def OUICHEFS_INDEX_BLOCK_LEN : Nat := 1024

def OUICHEFS_META_BLOCK_LEN : Nat := 4096

def OUICHEFS_MAX_SNAPSHOTS : Nat := 32

def OUICHEFS_IDE_PER_DATA_BLOCK : Nat := 51

def PAGE_SIZE : Nat := 4096

def U32_MOD : Nat := 4294967296

def errInval : Int := 22

def errIo : Int := 5

def errNoSpc : Int := 28

def errNoMem : Int := 12

def errNoEnt : Int := 2

def errFBig : Int := 27

/-! Bitmap allocator (bitmap.h).  A bitmap is a map from index to Bool with
1 = free, together with an explicit size and the superblock free counter. -/

/-- find_first_bit: index of the first set bit, or size when none is set. -/
def find_first_bit (bm : Nat → Bool) (size : Nat) : Nat :=
  match (List.range size).find? (fun i => bm i) with
  | some i => i
  | none => size

/-- get_first_free_bit (bitmap.h lines 23-46): return the first free (set)
bit and clear it, decrementing the u32 free counter; return 0 and change
nothing when the bitmap is exhausted.  The lock/recheck retry of the C code
is the identity in this sequential model. -/
def get_first_free_bit (bm : Nat → Bool) (size counter : Nat) :
    Nat × (Nat → Bool) × Nat :=
  let i := find_first_bit bm size
  if i = size then (0, bm, counter)
  else (i, fun j => if j = i then false else bm j,
        (counter + (U32_MOD - 1)) % U32_MOD)

/-- put_free_bit (bitmap.h lines 83-97): mark bit i free (set it) and
increment the u32 counter; indices strictly greater than size are rejected
with -1 and no state change. -/
def put_free_bit (bm : Nat → Bool) (size i counter : Nat) :
    Int × (Nat → Bool) × Nat :=
  if size < i then (-1, bm, counter)
  else (0, fun j => if j = i then true else bm j, (counter + 1) % U32_MOD)

/-- Number of set bits of the first size positions, the popcount the
superblock free counters are specified to track. -/
def bitmapPopcount (bm : Nat → Bool) (size : Nat) : Nat :=
  ((Finset.range size).filter (fun i => bm i = true)).card

/-! Reference-counted block store (block.c). -/

/-- enum ouichefs_datablock_type. -/
inductive DatablockType where
  | data
  | index
  | dir
  | inodeData
deriving DecidableEq

/-- In-memory view of the block device and the superblock fields the block
layer touches.  refcount models the metadata region (one byte per data
block); bfree and nrFreeBlocks model the block free bitmap with its
superblock counter; readOk is the sb_bread success oracle. -/
structure OuicheFs where
  dataStart : Nat
  metaStart : Nat
  nrBlocks : Nat
  refcount : Nat → Nat
  content : Nat → Nat → Nat
  bfree : Nat → Bool
  nrFreeBlocks : Nat
  readOk : Nat → Bool

/-- OUICHEFS_GET_META_BLOCK: metadata block hosting the refcount byte of
data block bno. -/
def metaBlockOf (st : OuicheFs) (bno : Nat) : Nat :=
  st.metaStart + (bno - st.dataStart) / OUICHEFS_META_BLOCK_LEN

/-- Point update of the metadata refcount byte of one block. -/
def setRef (st : OuicheFs) (bno r : Nat) : OuicheFs :=
  { st with refcount := fun b => if b = bno then r else st.refcount b }

/-- Whole-block content replacement (memcpy / memset target). -/
def setContent (st : OuicheFs) (bno : Nat) (c : Nat → Nat) : OuicheFs :=
  { st with content := fun b => if b = bno then c else st.content b }

/-- get_free_block (bitmap.h): first-fit allocation from the block free
bitmap. -/
def get_free_block (st : OuicheFs) : Nat × OuicheFs :=
  let r := get_first_free_bit st.bfree st.nrBlocks st.nrFreeBlocks
  (r.1, { st with bfree := r.2.1, nrFreeBlocks := r.2.2 })

/-- put_block (bitmap.h lines 114-121): return a block number to the block
free bitmap. -/
def bitmap_put_block (st : OuicheFs) (bno : Nat) : OuicheFs :=
  let r := put_free_bit st.bfree st.nrBlocks bno st.nrFreeBlocks
  { st with bfree := r.2.1, nrFreeBlocks := r.2.2 }

/-- ouichefs_alloc_block (block.c lines 23-58): draw a block from the
bitmap, set its refcount byte to 1.  Result: (return code, state, allocated
block on success). -/
def ouichefs_alloc_block (st : OuicheFs) : Int × OuicheFs × Option Nat :=
  let r := get_free_block st
  if r.1 = 0 then (-errNoSpc, r.2, none)
  else if r.2.readOk (metaBlockOf r.2 r.1) = false then (-errIo, r.2, none)
  else (0, setRef r.2 r.1 1, some r.1)

/-- ouichefs_get_block (block.c lines 63-94): increment the refcount byte
(u8 arithmetic) of an already used data block. -/
def ouichefs_get_block (st : OuicheFs) (bno : Nat) : Int × OuicheFs :=
  if bno < st.dataStart then (-errInval, st)
  else if st.readOk (metaBlockOf st bno) = false then (-errIo, st)
  else (0, setRef st bno ((st.refcount bno + 1) % 256))

/-- The index-block walk shared by cow_block and put_block (block.c lines
193-198 and 273-279): visit entries in order and stop at the first zero
entry ("if (!index->blocks[i]) break;"). -/
def entriesUntilZeroFrom (c : Nat → Nat) : Nat → Nat → List Nat
  | _, 0 => []
  | i, fuel + 1 => if c i = 0 then [] else c i :: entriesUntilZeroFrom c (i + 1) fuel

/-- Entries of an index block visited by the C loops, which break at the
first zero entry. -/
def indexEntriesUntilZero (c : Nat → Nat) : List Nat :=
  entriesUntilZeroFrom c 0 OUICHEFS_INDEX_BLOCK_LEN

/-- ouichefs_put_block specialised to kind OUICHEFS_DATA; this is the body
taken by the recursive calls inside the index-block walk (block.c line
277), which always pass OUICHEFS_DATA and therefore never recurse again. -/
def ouichefs_put_block_data (st : OuicheFs) (bno : Nat) : OuicheFs :=
  if bno < st.dataStart then st
  else if st.readOk (metaBlockOf st bno) = false then st
  else if st.refcount bno = 0 then st
  else
    let freeData := st.refcount bno ≤ 1
    let st1 := setRef st bno ((st.refcount bno + 255) % 256)
    if freeData then
      if st1.readOk bno = false then st1
      else bitmap_put_block (setContent st1 bno (fun _ => 0)) bno
    else st1

/-- ouichefs_put_block (block.c lines 217-293): decrement the refcount byte
and, when it was the last reference, zero the block and free it, first
putting the entries of an index block up to the first zero entry. -/
def ouichefs_put_block (st : OuicheFs) (bno : Nat) (btype : DatablockType) :
    OuicheFs :=
  if bno < st.dataStart then st
  else if st.readOk (metaBlockOf st bno) = false then st
  else if st.refcount bno = 0 then st
  else
    let freeData := st.refcount bno ≤ 1
    let st1 := setRef st bno ((st.refcount bno + 255) % 256)
    if freeData then
      if st1.readOk bno = false then st1
      else
        let st2 :=
          match btype with
          | .index =>
              (indexEntriesUntilZero (st1.content bno)).foldl
                (fun s e => ouichefs_put_block_data s e) st1
          | _ => st1
        bitmap_put_block (setContent st2 bno (fun _ => 0)) bno
    else st1

/-- Result of ouichefs_cow_block: return code, state, and the value of the
caller's block-number out-parameter after the call. -/
structure CowResult where
  ret : Int
  st : OuicheFs
  bno : Nat

/-- ouichefs_cow_block (block.c lines 108-210): if the refcount of the
block is 1 return 0 leaving everything unchanged; otherwise decrement the
old refcount, allocate a fresh block, copy the whole content, for kind
INDEX call get_block on the entries of the old content up to the first
zero entry (return values of get_block discarded as in the C code), point
the out-parameter at the copy and return 1.  Error paths return a negative
code and leave the out-parameter at the original block number. -/
def ouichefs_cow_block (st : OuicheFs) (bno : Nat) (btype : DatablockType) :
    CowResult :=
  if bno < st.dataStart then ⟨-errInval, st, bno⟩
  else if st.readOk (metaBlockOf st bno) = false then ⟨-errIo, st, bno⟩
  else if st.refcount bno = 1 then ⟨0, st, bno⟩
  else if st.readOk bno = false then ⟨-errIo, st, bno⟩
  else
    let st1 := setRef st bno ((st.refcount bno + 255) % 256)
    match ouichefs_alloc_block st1 with
    | (ret, st2, none) => ⟨ret, st2, bno⟩
    | (_, st2, some newBno) =>
      if st2.readOk newBno = false then
        ⟨-errIo, ouichefs_put_block st2 newBno .data, bno⟩
      else
        let st3 := setContent st2 newBno (st2.content bno)
        let st4 :=
          match btype with
          | .index =>
              (indexEntriesUntilZero (st3.content bno)).foldl
                (fun s e => (ouichefs_get_block s e).2) st3
          | _ => st3
        ⟨1, st4, newBno⟩

/-! Concrete block-store states used to evaluate the code on failing
inputs.  They describe a device whose data region starts at block 8 with a
single metadata block 7; blocks 12..15 are free. -/

/-- A state where data block 8 is an index block with a hole: entry 0 is
zero and entry 1 names data block 9.  Block 8 is shared (refcount 2). -/
def cs2 : OuicheFs :=
  { dataStart := 8
    metaStart := 7
    nrBlocks := 16
    refcount := fun b => if b = 8 then 2 else if b = 9 then 1 else 0
    content := fun b => if b = 8 then (fun i => if i = 1 then 9 else 0)
               else (fun _ => 0)
    bfree := fun b => decide (10 ≤ b ∧ b < 16)
    nrFreeBlocks := 6
    readOk := fun _ => true }

/-- A state where index block 8 has a hole at entry 0 before entry 1 = 9
and is about to lose its last reference. -/
def cs3 : OuicheFs :=
  { dataStart := 8
    metaStart := 7
    nrBlocks := 16
    refcount := fun b => if b = 8 then 1 else if b = 9 then 1 else 0
    content := fun b => if b = 8 then (fun i => if i = 1 then 9 else 0)
               else (fun _ => 0)
    bfree := fun b => decide (10 ≤ b ∧ b < 16)
    nrFreeBlocks := 6
    readOk := fun _ => true }

/-- A minimal state used to exercise the -errInval path of cow_block. -/
def cs10 : OuicheFs :=
  { dataStart := 8
    metaStart := 7
    nrBlocks := 16
    refcount := fun _ => 0
    content := fun _ _ => 0
    bfree := fun _ => false
    nrFreeBlocks := 0
    readOk := fun _ => true }

/-! Inode-data store (inode_data.c).  An inode-data entry is addressed by a
dense index idx; the inode-data index table maps idx to the data block
hosting it and the entry sits at offset idx mod 51 within that block.  The
composite of OUICHEFS_GET_IDIDX_BLOCK and OUICHEFS_GET_IDIDX_INDEX is
injective in idx / 51, and OUICHEFS_GET_IDIDX_SHIFT equals idx mod 51
(since 52224 = 51 * 1024), so the index table is modelled as a map from
idx / 51 to the hosting block.  Entries are modelled through the fields the
sources read and write: the refcount byte and the index_block pointer; the
remaining POSIX metadata fields ride along in no claim and are omitted,
with "cleared to zero" meaning both modelled fields are zero. -/

/-- The two inode-data entry fields the embedded operations touch. -/
structure InodeData where
  refcount : Nat
  index_block : Nat
deriving DecidableEq

/-- memset(inode_data, 0, sizeof(struct ouichefs_inode_data)). -/
def zeroInodeData : InodeData := ⟨0, 0⟩

/-- State of the inode-data layer on top of the block store: the on-disk
inode table (ino and snapshot slot to idx), the inode-data index table
(idx / 51 to hosting block), the hosted entries (block and offset), and
the inode-data and inode free bitmaps with their counters. -/
structure IdFs where
  blk : OuicheFs
  iData : Nat → Nat → Nat
  ididxBlocks : Nat → Nat
  entries : Nat → Nat → InodeData
  idFree : Nat → Bool
  nrIdEntries : Nat
  nrFreeIdEntries : Nat
  ifree : Nat → Bool
  nrInodes : Nat
  nrFreeInodes : Nat
  idIdxStart : Nat

/-- idx / 51: which inode-data index slot (hence which hosting block) an
entry index resolves to. -/
def idGroup (idx : Nat) : Nat := idx / OUICHEFS_IDE_PER_DATA_BLOCK

/-- idx mod 51: offset of the entry within its hosting block. -/
def idShift (idx : Nat) : Nat := idx % OUICHEFS_IDE_PER_DATA_BLOCK

/-- OUICHEFS_GET_IDIDX_BLOCK: on-disk block number of the inode-data index
block consulted for idx (feeds the read oracle). -/
def idIdxBlockOf (st : IdFs) (idx : Nat) : Nat :=
  st.idIdxStart + idx / (OUICHEFS_IDE_PER_DATA_BLOCK * OUICHEFS_INDEX_BLOCK_LEN)

/-- Point update of the inode table. -/
def setIData (st : IdFs) (ino slot v : Nat) : IdFs :=
  { st with iData := fun i s => if i = ino ∧ s = slot then v else st.iData i s }

/-- Point update of one hosted inode-data entry. -/
def setEntry (st : IdFs) (bno shift : Nat) (e : InodeData) : IdFs :=
  { st with entries := fun b s => if b = bno ∧ s = shift then e else st.entries b s }

/-- Entry view of the memset performed by ouichefs_put_block when it frees
a hosting block: all entries of the block become zero. -/
def clearEntriesBlock (st : IdFs) (bno : Nat) : IdFs :=
  { st with entries := fun b s => if b = bno then zeroInodeData else st.entries b s }

/-- put_inode (bitmap.h lines 102-109): free an inode number. -/
def put_inode (st : IdFs) (ino : Nat) : IdFs :=
  let r := put_free_bit st.ifree st.nrInodes ino st.nrFreeInodes
  { st with ifree := r.2.1, nrFreeInodes := r.2.2 }

/-- put_inode_data_entry (bitmap.h lines 126-134): free an inode-data entry
index. -/
def put_inode_data_entry (st : IdFs) (idx : Nat) : IdFs :=
  let r := put_free_bit st.idFree st.nrIdEntries idx st.nrFreeIdEntries
  { st with idFree := r.2.1, nrFreeIdEntries := r.2.2 }

/-- get_free_id_entry (bitmap.h lines 72-78): first-fit allocation from
the inode-data free bitmap. -/
def get_free_id_entry (st : IdFs) : Nat × IdFs :=
  let r := get_first_free_bit st.idFree st.nrIdEntries st.nrFreeIdEntries
  (r.1, { st with idFree := r.2.1, nrFreeIdEntries := r.2.2 })

/-- The check_free_ino tail of ouichefs_put_inode_data (inode_data.c lines
342-349): free the inode number once no snapshot slot references it. -/
def ouichefs_check_free_ino (st : IdFs) (ino : Nat) : IdFs :=
  if (List.range OUICHEFS_MAX_SNAPSHOTS).all (fun i => st.iData ino i == 0)
  then put_inode st ino
  else st

/-- ouichefs_put_inode_data (inode_data.c lines 244-350): unlink the inode
from its inode data in the given snapshot slot; when the entry refcount
reaches zero, clear the entry, free the hosting block when it holds no
other live entry (clearing its inode-data index slot), free the entry
index, and finally free the inode number when every slot is zero. -/
def ouichefs_put_inode_data (st : IdFs) (ino snap : Nat) : IdFs :=
  let idx := st.iData ino snap
  let st0 := setIData st ino snap 0
  if idx = 0 ∨ st0.nrIdEntries ≤ idx then ouichefs_check_free_ino st0 ino
  else if st0.blk.readOk (idIdxBlockOf st0 idx) = false then
    ouichefs_check_free_ino st0 ino
  else
    let bno := st0.ididxBlocks (idGroup idx)
    if bno < st0.blk.dataStart ∨ st0.blk.nrBlocks ≤ bno then
      ouichefs_check_free_ino st0 ino
    else if st0.blk.readOk bno = false then ouichefs_check_free_ino st0 ino
    else
      let ent := st0.entries bno (idShift idx)
      if ent.refcount = 0 then ouichefs_check_free_ino st0 ino
      else
        let rc2 := (ent.refcount + 255) % 256
        let st1 := setEntry st0 bno (idShift idx) { ent with refcount := rc2 }
        if rc2 = 0 then
          let st2 := setEntry st1 bno (idShift idx) zeroInodeData
          if (List.range OUICHEFS_IDE_PER_DATA_BLOCK).any
              (fun i => 0 < (st2.entries bno i).refcount) then
            ouichefs_check_free_ino (put_inode_data_entry st2 idx) ino
          else
            let st3 := clearEntriesBlock
              { st2 with blk := ouichefs_put_block st2.blk bno .inodeData } bno
            let st4 := { st3 with ididxBlocks :=
              fun g => if g = idGroup idx then 0 else st3.ididxBlocks g }
            ouichefs_check_free_ino (put_inode_data_entry st4 idx) ino
        else ouichefs_check_free_ino st1 ino

/-- ouichefs_link_inode_data (inode_data.c lines 173-238): share the
inode data of slot fromSlot into slot toSlot.  If the two slots already
name the same entry the call returns 0 without touching anything;
otherwise it bumps the entry refcount (repairing a zero refcount to 1
first), bumps the refcount of the entry's index_block via get_block
(return value discarded as in the C code), releases a previous occupant of
toSlot via put_inode_data, and stores the index. -/
def ouichefs_link_inode_data (st : IdFs) (ino fromSlot toSlot : Nat) :
    Int × IdFs :=
  let idx := st.iData ino fromSlot
  if st.iData ino fromSlot = st.iData ino toSlot then (0, st)
  else if idx = 0 ∨ st.nrIdEntries ≤ idx then (-errInval, st)
  else if st.blk.readOk (idIdxBlockOf st idx) = false then (-errIo, st)
  else
    let bno := st.ididxBlocks (idGroup idx)
    if bno < st.blk.dataStart ∨ st.blk.nrBlocks ≤ bno then (-errInval, st)
    else if st.blk.readOk bno = false then (-errIo, st)
    else
      let ent := st.entries bno (idShift idx)
      let rc := if ent.refcount = 0 then 1 else ent.refcount
      let st1 := setEntry st bno (idShift idx) { ent with refcount := (rc + 1) % 256 }
      let st2 := { st1 with blk := (ouichefs_get_block st1.blk ent.index_block).2 }
      let st3 := if st2.iData ino toSlot ≠ 0
                 then ouichefs_put_inode_data st2 ino toSlot else st2
      (0, setIData st3 ino toSlot idx)

/-! The live write path.  A write through the VFS runs
ouichefs_file_get_block with create and cow set (file.c lines 27-98, used
by write_begin and writepage), the page cache then stores the new bytes
into the mapped block, and ouichefms write-back runs ouichefs_write_inode,
which fetches the live inode data with is_cow set (copying the entry when
it is shared) and stores the in-memory index_block into it. -/

/-- ouichefs_get_inode_data with allocate = true (inode_data.c lines
29-168): draw a fresh entry index, allocate a hosting block when the
inode-data index slot is empty, set the entry refcount to 1, and map the
new index into the live slot i_data[0].  Result: (return code, state,
hosting block, entry offset). -/
def ouichefs_get_inode_data_alloc (st : IdFs) (ino : Nat) :
    Int × IdFs × Nat × Nat :=
  let r := get_free_id_entry st
  let idx := r.1
  let stA := r.2
  if idx = 0 then (-errNoSpc, st, 0, 0)
  else if stA.blk.readOk (idIdxBlockOf stA idx) = false then (-errIo, stA, 0, 0)
  else
    let bno0 := stA.ididxBlocks (idGroup idx)
    if bno0 = 0 then
      match ouichefs_alloc_block stA.blk with
      | (ret, blk2, none) => (ret, { stA with blk := blk2 }, 0, 0)
      | (_, blk2, some bno) =>
        let stB := { stA with blk := blk2 }
        if stB.blk.readOk bno = false then (-errIo, stB, 0, 0)
        else
          let stC := setEntry stB bno (idShift idx)
            { stB.entries bno (idShift idx) with refcount := 1 }
          let stD := { stC with ididxBlocks :=
            fun g => if g = idGroup idx then bno else stC.ididxBlocks g }
          (0, setIData stD ino 0 idx, bno, idShift idx)
    else if bno0 < stA.blk.dataStart ∨ stA.blk.nrBlocks ≤ bno0 then
      (-errInval, stA, 0, 0)
    else if stA.blk.readOk bno0 = false then (-errIo, stA, 0, 0)
    else
      let stC := setEntry stA bno0 (idShift idx)
        { stA.entries bno0 (idShift idx) with refcount := 1 }
      (0, setIData stC ino 0 idx, bno0, idShift idx)

/-- ouichefs_get_inode_data with allocate = false and is_cow = true
(inode_data.c lines 29-168): locate the live entry; when its refcount is
greater than 1, decrement it and recurse with allocate = true to obtain a
private entry the caller will overwrite. -/
def ouichefs_get_inode_data_cow (st : IdFs) (ino : Nat) :
    Int × IdFs × Nat × Nat :=
  let idx := st.iData ino 0
  if idx = 0 ∨ st.nrIdEntries ≤ idx then (-errInval, st, 0, 0)
  else if st.blk.readOk (idIdxBlockOf st idx) = false then (-errIo, st, 0, 0)
  else
    let bno := st.ididxBlocks (idGroup idx)
    if bno < st.blk.dataStart ∨ st.blk.nrBlocks ≤ bno then (-errInval, st, 0, 0)
    else if st.blk.readOk bno = false then (-errIo, st, 0, 0)
    else
      let ent := st.entries bno (idShift idx)
      if 1 < ent.refcount then
        let st1 := setEntry st bno (idShift idx)
          { ent with refcount := (ent.refcount + 255) % 256 }
        ouichefs_get_inode_data_alloc st1 ino
      else (0, st, bno, idShift idx)

/-- One data-block write through the live slot: ouichefs_file_get_block
with create and cow (file.c lines 27-98) resolves and privatises the index
block and the data block, the page cache stores the new bytes, and
ouichefs_write_inode (super source) writes the in-memory index_block back
through ouichefs_get_inode_data with is_cow.  Result: (return code,
state). -/
def ouichefs_write_block (st : IdFs) (ino iblk : Nat) (data : Nat → Nat) :
    Int × IdFs :=
  let idx0 := st.iData ino 0
  let hb0 := st.ididxBlocks (idGroup idx0)
  let ib0 := (st.entries hb0 (idShift idx0)).index_block
  if OUICHEFS_INDEX_BLOCK_LEN ≤ iblk then (-errFBig, st)
  else
    let c := ouichefs_cow_block st.blk ib0 .index
    if c.ret < 0 then (c.ret, { st with blk := c.st })
    else
      let ib1 := c.bno
      let st1 : IdFs := { st with blk := c.st }
      if st1.blk.readOk ib1 = false then (-errIo, st1)
      else
        let bno := st1.blk.content ib1 iblk
        let afterMap : Int × IdFs × Nat :=
          if bno = 0 then
            match ouichefs_alloc_block st1.blk with
            | (ret, blk2, none) => (ret, { st1 with blk := blk2 }, 0)
            | (_, blk2, some nb) =>
              let blk3 := setContent blk2 ib1
                (fun i => if i = iblk then nb else blk2.content ib1 i)
              (0, { st1 with blk := blk3 }, nb)
          else
            let c2 := ouichefs_cow_block st1.blk bno .data
            if c2.ret < 0 then (c2.ret, { st1 with blk := c2.st }, 0)
            else if c2.ret = 0 then (0, { st1 with blk := c2.st }, bno)
            else
              let blk3 := setContent c2.st ib1
                (fun i => if i = iblk then c2.bno else c2.st.content ib1 i)
              (0, { st1 with blk := blk3 }, c2.bno)
        if afterMap.1 < 0 then (afterMap.1, afterMap.2.1)
        else
          let st2 := afterMap.2.1
          let db := afterMap.2.2
          let st3 := { st2 with blk := setContent st2.blk db data }
          let w := ouichefs_get_inode_data_cow st3 ino
          if w.1 < 0 then (w.1, w.2.1)
          else
            let st4 := w.2.1
            let ebno := w.2.2.1
            let eshift := w.2.2.2
            (0, setEntry st4 ebno eshift
              { st4.entries ebno eshift with index_block := ib1 })

/-- File content as seen through a snapshot slot: resolve i_data[slot] to
its entry (ouichefs_ifill via the current snapshot index), follow the
index_block, then the iblk-th index entry, then read the byte (file.c
read path with create = cow = false). -/
def ouichefs_snapshot_read_byte (st : IdFs) (ino slot iblk off : Nat) : Nat :=
  let idx := st.iData ino slot
  let hb := st.ididxBlocks (idGroup idx)
  let ib := (st.entries hb (idShift idx)).index_block
  st.blk.content (st.blk.content ib iblk) off

/-! A concrete filesystem exhibiting the claims about snapshot
immutability.  Inode 1 is live with entry index 1 hosted in block 9; its
index block is 10 and holds a sparse file: index entry 0 is a hole and
index entry 1 names data block 11, whose bytes all read 65. -/

/-- Base state before any snapshot: one live inode with one sparse file. -/
def c1Base : IdFs :=
  { blk :=
    { dataStart := 8
      metaStart := 7
      nrBlocks := 16
      refcount := fun b => if b = 9 ∨ b = 10 ∨ b = 11 then 1 else 0
      content := fun b => if b = 10 then (fun i => if i = 1 then 11 else 0)
                 else if b = 11 then (fun _ => 65)
                 else (fun _ => 0)
      bfree := fun b => decide (12 ≤ b ∧ b < 16)
      nrFreeBlocks := 4
      readOk := fun _ => true }
    iData := fun i s => if i = 1 ∧ s = 0 then 1 else 0
    ididxBlocks := fun g => if g = 0 then 9 else 0
    entries := fun b s => if b = 9 ∧ s = 1 then ⟨1, 10⟩ else zeroInodeData
    idFree := fun i => decide (2 ≤ i ∧ i < 8)
    nrIdEntries := 8
    nrFreeIdEntries := 6
    ifree := fun i => decide (2 ≤ i ∧ i < 4)
    nrInodes := 4
    nrFreeInodes := 2
    idIdxStart := 6 }

/-- State at the moment the snapshot in slot 1 is created: snapshot_create
under freeze runs copy_all_disk_inodes, i.e. ouichefs_link_inode_data
from slot 0 to slot 1 for the one live inode. -/
def c1Snap : IdFs := (ouichefs_link_inode_data c1Base 1 0 1).2

/-- State after a subsequent write of byte value 66 over logical block 1
of the file through the live slot. -/
def c1After : IdFs := (ouichefs_write_block c1Snap 1 1 (fun _ => 66)).2

/-! Snapshot manager (snapshot.c).  The snapshot table lives in the
superblock; slot 0 is the live snapshot.  Create is modelled over an
abstract disk component D: copy_all_disk_inodes only runs once the id
bookkeeping has succeeded and the filesystem is frozen, and its effect and
return code are parameters (copyUpd, copyRet), as is the freeze result. -/

/-- struct ouichefs_snapshot_info. -/
structure SnapInfo where
  created : Int
  id : Nat
deriving DecidableEq

/-- Superblock snapshot table plus the rest of the on-disk state,
abstracted as D. -/
structure SnapState (D : Type) where
  snapshots : Nat → SnapInfo
  disk : D

/-- The scan for the lowest free slot index (snapshot.c lines 400-406):
slots 1..31 in order, first with id 0. -/
def snapshot_find_free_index (snaps : Nat → SnapInfo) : Option Nat :=
  (List.range' 1 (OUICHEFS_MAX_SNAPSHOTS - 1)).find? (fun j => (snaps j).id == 0)

/-- Whether some slot 1..31 currently holds the id v (the inner scans of
snapshot.c lines 416-431). -/
def snapshot_id_present (snaps : Nat → SnapInfo) (v : Nat) : Bool :=
  (List.range' 1 (OUICHEFS_MAX_SNAPSHOTS - 1)).any (fun j => (snaps j).id == v)

/-- The id search loop (snapshot.c lines 413-423): starting from candidate
k, advance while the candidate is present in the table.  The C loop is
unbounded; 32 steps always suffice because 31 slots cannot occupy all of
1..32 (proved below), so the model carries explicit fuel. -/
def first_absent_id (snaps : Nat → SnapInfo) : Nat → Nat → Nat
  | _, 0 => 0
  | k, fuel + 1 =>
    if snapshot_id_present snaps k then first_absent_id snaps (k + 1) fuel else k

/-- The smallest positive id not present in the table, as computed by
snapshot_create when the caller passes 0. -/
def find_smallest_free_id (snaps : Nat → SnapInfo) : Nat :=
  first_absent_id snaps 1 OUICHEFS_MAX_SNAPSHOTS

/-- ouichefs_snapshot_create (snapshot.c lines 391-458): find the lowest
free slot (-ENOMEM when the table is full), choose or validate the id
(-EINVAL when a supplied id already exists), freeze, copy all disk inodes,
and only then record (now, id) in the slot. -/
def ouichefs_snapshot_create {D : Type} (st : SnapState D) (s_id : Nat)
    (now : Int) (freezeRet copyRet : Int) (copyUpd : D → D) :
    Int × SnapState D :=
  match snapshot_find_free_index st.snapshots with
  | none => (-errNoMem, st)
  | some k =>
    let idSel : Except Int Nat :=
      if s_id = 0 then .ok (find_smallest_free_id st.snapshots)
      else if snapshot_id_present st.snapshots s_id then .error (-errInval)
      else .ok s_id
    match idSel with
    | .error e => (e, st)
    | .ok newId =>
      if freezeRet ≠ 0 then (freezeRet, st)
      else
        let st1 := { st with disk := copyUpd st.disk }
        if copyRet ≠ 0 then (copyRet, st1)
        else (0, { st1 with snapshots :=
          fun j => if j = k then ⟨now, newId⟩ else st1.snapshots j })

/-! Snapshot listing (snapshot.c lines 547-574).  The output buffer is a
byte sequence; scnprintf appends at most size - 1 bytes and returns the
number of bytes written.  The timestamp is broken down as UTC; the kernel
helper time64_to_tm is host code outside this repository, so the
conversion is modelled from the spec as the standard proleptic Gregorian
civil calendar for nonnegative epoch seconds. -/

/-- Decimal digits of n as ASCII byte values (the %u / %d rendering);
fuel 10 covers every value below 10^10, in particular every u32. -/
def natDecBytesAux : Nat → Nat → List Nat
  | 0, _ => []
  | fuel + 1, n =>
    if n < 10 then [48 + n]
    else natDecBytesAux fuel (n / 10) ++ [48 + n % 10]

/-- ASCII decimal rendering of a Nat (enough fuel for any u32). -/
def natDecBytes (n : Nat) : List Nat := natDecBytesAux 10 n

/-- The %02d rendering: zero-pad to two digits. -/
def pad2 (n : Nat) : List Nat :=
  if n < 10 then 48 :: natDecBytes n else natDecBytes n

/-- Gregorian leap-year predicate. -/
def isLeapYear (y : Nat) : Bool :=
  decide ((y % 4 = 0 ∧ y % 100 ≠ 0) ∨ y % 400 = 0)

/-- Days in a Gregorian year. -/
def daysInYear (y : Nat) : Nat := if isLeapYear y then 366 else 365

/-- Walk forward from a base year consuming whole years from a day count;
returns the final year and the remaining day-of-year. -/
def civilYear (y days : Nat) : Nat × Nat :=
  if _h : days < daysInYear y then (y, days)
  else civilYear (y + 1) (days - daysInYear y)
termination_by days
decreasing_by
  have hy : 0 < daysInYear y := by unfold daysInYear; split <;> omega
  omega

/-- Month lengths of a Gregorian year. -/
def monthLengths (leap : Bool) : List Nat :=
  [31, if leap then 29 else 28, 31, 30, 31, 30, 31, 31, 30, 31, 30, 31]

/-- Resolve a day-of-year to (1-based month, 0-based day of month). -/
def monthAndDayAux (m d : Nat) : List Nat → Nat × Nat
  | [] => (m, d)
  | len :: rest => if d < len then (m, d) else monthAndDayAux (m + 1) (d - len) rest

/-- Month and day-of-month of a day-of-year. -/
def monthAndDay (leap : Bool) (yday : Nat) : Nat × Nat :=
  monthAndDayAux 1 yday (monthLengths leap)

/-- Broken-down civil time.  Modelled from the spec: the "broken-down UTC
representation of created" computed by the host helper time64_to_tm, for
nonnegative epoch seconds (mon1 is the 1-based month, year the full
Gregorian year). -/
structure Tm where
  sec : Nat
  min : Nat
  hour : Nat
  mday : Nat
  mon1 : Nat
  year : Nat
deriving DecidableEq

/-- Broken-down UTC of a nonnegative epoch-second count. -/
def brokenDownUTC (t : Nat) : Tm :=
  let days := t / 86400
  let rem := t % 86400
  let yd := civilYear 1970 days
  let md := monthAndDay (isLeapYear yd.1) yd.2
  { sec := rem % 60
    min := rem / 60 % 60
    hour := rem / 3600
    mday := md.2 + 1
    mon1 := md.1
    year := yd.1 }

/-- One line of the listing: the scnprintf format
"%u: %02d.%02d.%02ld %02d:%02d:%02d\n" applied to the snapshot id and the
broken-down UTC creation time (day, month, two-digit year, hour, minute,
second); byte values 58, 32, 46, 10 are the ASCII codes of the colon,
space, dot and newline. -/
def snapshot_line (s : SnapInfo) : List Nat :=
  let tm := brokenDownUTC s.created.toNat
  natDecBytes s.id ++ [58, 32] ++
  pad2 tm.mday ++ [46] ++ pad2 tm.mon1 ++ [46] ++ pad2 (tm.year % 100) ++
  [32] ++ pad2 tm.hour ++ [58] ++ pad2 tm.min ++ [58] ++ pad2 tm.sec ++ [10]

/-- scnprintf(buf + pos, size, ...): append at most size - 1 bytes of s and
return the new buffer and the number of bytes written (0 when size is 0). -/
def scnprintf_append (buf : List Nat) (size : Nat) (s : List Nat) :
    List Nat × Nat :=
  if size = 0 then (buf, 0)
  else (buf ++ s.take (min s.length (size - 1)), min s.length (size - 1))

/-- The loop body of ouichefs_snapshot_list: skip an empty slot, append
the formatted line of a live one through scnprintf and advance pos. -/
def snapshot_list_step (snaps : Nat → SnapInfo) (acc : List Nat × Nat)
    (i : Nat) : List Nat × Nat :=
  if (snaps i).id = 0 then acc
  else
    let r := scnprintf_append acc.1 (PAGE_SIZE - acc.2) (snapshot_line (snaps i))
    (r.1, acc.2 + r.2)

/-- ouichefs_snapshot_list (snapshot.c lines 547-574): iterate slots 1..31
in order, skip empty slots, append one formatted line per snapshot into a
one-page buffer via scnprintf, and return the byte count. -/
def ouichefs_snapshot_list (snaps : Nat → SnapInfo) : List Nat × Nat :=
  (List.range' 1 (OUICHEFS_MAX_SNAPSHOTS - 1)).foldl (snapshot_list_step snaps)
    ([], 0)

/-- The listing the claim describes: one snapshot_line per non-empty slot,
in slot order. -/
def expected_listing (snaps : Nat → SnapInfo) (slots : List Nat) : List Nat :=
  (slots.filterMap (fun i =>
    if (snaps i).id = 0 then none else some (snapshot_line (snaps i)))).flatten

/-! Frame facts for the state helpers, used throughout the proofs. -/

theorem setRef_content (st : OuicheFs) (bno r : Nat) :
    (setRef st bno r).content = st.content := rfl

theorem setRef_bfree (st : OuicheFs) (bno r : Nat) :
    (setRef st bno r).bfree = st.bfree := rfl

theorem setContent_refcount (st : OuicheFs) (bno : Nat) (c : Nat → Nat) :
    (setContent st bno c).refcount = st.refcount := rfl

theorem bitmap_put_block_refcount (st : OuicheFs) (bno : Nat) :
    (bitmap_put_block st bno).refcount = st.refcount := rfl

theorem bitmap_put_block_content (st : OuicheFs) (bno : Nat) :
    (bitmap_put_block st bno).content = st.content := rfl

theorem setIData_entries (st : IdFs) (ino slot v : Nat) :
    (setIData st ino slot v).entries = st.entries := rfl

theorem setIData_blk (st : IdFs) (ino slot v : Nat) :
    (setIData st ino slot v).blk = st.blk := rfl

theorem setIData_ididxBlocks (st : IdFs) (ino slot v : Nat) :
    (setIData st ino slot v).ididxBlocks = st.ididxBlocks := rfl

theorem setEntry_iData (st : IdFs) (bno shift : Nat) (e : InodeData) :
    (setEntry st bno shift e).iData = st.iData := rfl

theorem setEntry_blk (st : IdFs) (bno shift : Nat) (e : InodeData) :
    (setEntry st bno shift e).blk = st.blk := rfl

theorem setEntry_ididxBlocks (st : IdFs) (bno shift : Nat) (e : InodeData) :
    (setEntry st bno shift e).ididxBlocks = st.ididxBlocks := rfl

theorem put_inode_entries (st : IdFs) (ino : Nat) :
    (put_inode st ino).entries = st.entries := rfl

theorem put_inode_blk (st : IdFs) (ino : Nat) :
    (put_inode st ino).blk = st.blk := rfl

theorem put_inode_iData (st : IdFs) (ino : Nat) :
    (put_inode st ino).iData = st.iData := rfl

theorem put_inode_ididxBlocks (st : IdFs) (ino : Nat) :
    (put_inode st ino).ididxBlocks = st.ididxBlocks := rfl

theorem put_inode_data_entry_entries (st : IdFs) (idx : Nat) :
    (put_inode_data_entry st idx).entries = st.entries := rfl

theorem put_inode_data_entry_blk (st : IdFs) (idx : Nat) :
    (put_inode_data_entry st idx).blk = st.blk := rfl

theorem put_inode_data_entry_iData (st : IdFs) (idx : Nat) :
    (put_inode_data_entry st idx).iData = st.iData := rfl

theorem put_inode_data_entry_ididxBlocks (st : IdFs) (idx : Nat) :
    (put_inode_data_entry st idx).ididxBlocks = st.ididxBlocks := rfl

theorem check_free_ino_entries (st : IdFs) (ino : Nat) :
    (ouichefs_check_free_ino st ino).entries = st.entries := by
  unfold ouichefs_check_free_ino
  split <;> rfl

theorem check_free_ino_blk (st : IdFs) (ino : Nat) :
    (ouichefs_check_free_ino st ino).blk = st.blk := by
  unfold ouichefs_check_free_ino
  split <;> rfl

theorem check_free_ino_iData (st : IdFs) (ino : Nat) :
    (ouichefs_check_free_ino st ino).iData = st.iData := by
  unfold ouichefs_check_free_ino
  split <;> rfl

theorem check_free_ino_ididxBlocks (st : IdFs) (ino : Nat) :
    (ouichefs_check_free_ino st ino).ididxBlocks = st.ididxBlocks := by
  unfold ouichefs_check_free_ino
  split <;> rfl

/-! Claim C1 (snapshot immutability). -/

/-- C1: snapshot immutability fails on the code.  In the concrete state
c1Base, inode 1 holds a sparse file (index entry 0 is a hole, entry 1
names data block 11 whose bytes read 65).  Creating a snapshot in slot 1
succeeds (link returns 0) and the snapshot then reads byte 65.  A
subsequent successful write (return 0) of byte 66 through the live slot
changes the byte the snapshot reads to 66: cow_block privatises the index
block but its entry walk breaks at the hole, block 11 keeps refcount 1,
and the writer mutates it in place although the snapshot still reaches
it. -/
theorem C1_snapshot_immutability_violated :
    (ouichefs_link_inode_data c1Base 1 0 1).1 = 0 ∧
    ouichefs_snapshot_read_byte c1Snap 1 1 1 0 = 65 ∧
    (ouichefs_write_block c1Snap 1 1 (fun _ => 66)).1 = 0 ∧
    ouichefs_snapshot_read_byte c1After 1 1 1 0 = 66 := by decide

/-! Claim C2 (cow_block). -/

/-- C2: evaluation of ouichefs_cow_block at a shared index block with a
hole.  In cs2, block 8 (refcount 2) is an index block whose entry 0 is
zero and whose entry 1 names block 9 (refcount 1).  The call copies the
block into fresh block 10, decrements refcount(8) and returns 1 with the
out-parameter at 10 - but it leaves refcount(9) at 1 even though the copy
also references block 9 (the claim requires the refcount of every
non-zero entry, hence of block 9, to be incremented to 2): the entry walk
of block.c breaks at the first zero entry. -/
theorem C2_cow_block_misses_entry_after_hole :
    (ouichefs_cow_block cs2 8 .index).ret = 1 ∧
    (ouichefs_cow_block cs2 8 .index).bno = 10 ∧
    (ouichefs_cow_block cs2 8 .index).st.content 10 1 = 9 ∧
    (ouichefs_cow_block cs2 8 .index).st.refcount 8 = 1 ∧
    (ouichefs_cow_block cs2 8 .index).st.refcount 9 = 1 := by decide

/-! Claim C3 (put_block). -/

/-- C3: evaluation of ouichefs_put_block at an index block with a hole
losing its last reference.  In cs3, block 8 (refcount 1) is an index
block whose entry 0 is zero and whose entry 1 names block 9 (refcount 1).
The call frees block 8 (refcount 0, zeroed, returned to the bitmap) but
leaves refcount(9) at 1 and block 9 unfreed, although the claim requires
every non-zero entry, hence block 9, to be recursively put: the entry
walk of block.c breaks at the first zero entry. -/
theorem C3_put_block_misses_entry_after_hole :
    (ouichefs_put_block cs3 8 .index).refcount 8 = 0 ∧
    (ouichefs_put_block cs3 8 .index).bfree 8 = true ∧
    (ouichefs_put_block cs3 8 .index).content 8 1 = 0 ∧
    (ouichefs_put_block cs3 8 .index).refcount 9 = 1 ∧
    (ouichefs_put_block cs3 8 .index).bfree 9 = false := by decide

/-! Claim C10 (cow_block out-parameter frame). -/

/-- C10: whenever ouichefs_cow_block does not take the successful
copy path that returns 1 - so on every negative error return (invalid
block number, metadata or data read failure, allocation failure) and on
the refcount-1 fast path returning 0 - the caller's block-number
out-parameter still holds the original block number. -/
theorem C10_cow_block_out_param_unchanged (st : OuicheFs) (bno : Nat)
    (t : DatablockType) (h : (ouichefs_cow_block st bno t).ret ≠ 1) :
    (ouichefs_cow_block st bno t).bno = bno := by
  unfold ouichefs_cow_block at h ⊢
  split_ifs at h ⊢ <;> try rfl
  dsimp only at h ⊢
  rcases hA : ouichefs_alloc_block (setRef st bno ((st.refcount bno + 255) % 256))
    with ⟨r1, r2, _ | nb⟩
  · rfl
  · rw [hA] at h
    dsimp only at h ⊢
    by_cases hR : r2.readOk nb = false
    · simp only [hR, reduceIte]
    · simp only [hR, reduceIte] at h ⊢
      exact absurd rfl h

/-- C10 witness: at the concrete state cs10 the block number 3 lies below
the data region, cow_block fails with -EINVAL and the out-parameter still
reads 3. -/
theorem C10_witness : (ouichefs_cow_block cs10 3 .data).bno = 3 :=
  C10_cow_block_out_param_unchanged cs10 3 .data (by decide)

/-! Claim C7 (snapshot table full). -/

/-- A full snapshot table: slots 1..31 all hold nonzero ids. -/
def c7Snaps : Nat → SnapInfo := fun j =>
  if 1 ≤ j ∧ j < OUICHEFS_MAX_SNAPSHOTS then ⟨100, j⟩ else ⟨0, 0⟩

/-- The full-table state over a trivial disk component. -/
def c7St : SnapState Unit := ⟨c7Snaps, ()⟩

/-- C7 counterexample: with every slot 1..31 occupied, snapshot_create
fails - but with -ENOMEM, not with the no-space error -ENOSPC the claim
names (the error ouichefs uses for exhausted allocators). -/
theorem C7_counterexample :
    (ouichefs_snapshot_create c7St 0 0 0 0 id).1 = -errNoMem ∧
    -errNoMem ≠ -errNoSpc := by
  constructor
  · rfl
  · decide

/-- C7 amended: when every snapshot slot 1..31 holds a nonzero id,
snapshot_create fails with -ENOMEM (not -ENOSPC) before freezing, and
leaves the snapshot table and all on-disk state unchanged, for any
caller-supplied id. -/
theorem C7_full_table_enomem {D : Type} (st : SnapState D) (s_id : Nat)
    (now freezeRet copyRet : Int) (copyUpd : D → D)
    (hfull : ∀ j, j < OUICHEFS_MAX_SNAPSHOTS → 1 ≤ j → (st.snapshots j).id ≠ 0) :
    ouichefs_snapshot_create st s_id now freezeRet copyRet copyUpd =
      (-errNoMem, st) := by
  unfold ouichefs_snapshot_create
  have hnone : snapshot_find_free_index st.snapshots = none := by
    unfold snapshot_find_free_index
    rw [List.find?_eq_none]
    intro j hj
    rw [List.mem_range'_1] at hj
    simp only [beq_iff_eq]
    exact hfull j (by omega) (by omega)
  rw [hnone]

/-- C7 witness: the amended theorem applied to the concrete full table. -/
theorem C7_witness :
    ouichefs_snapshot_create c7St 5 7 0 0 id = (-errNoMem, c7St) :=
  C7_full_table_enomem c7St 5 7 0 0 id (by decide)

/-! Claim C6 (bitmap consistency). -/

theorem bitmapPopcount_le (bm : Nat → Bool) (size : Nat) :
    bitmapPopcount bm size ≤ size := by
  unfold bitmapPopcount
  calc ((Finset.range size).filter (fun i => bm i = true)).card
      ≤ (Finset.range size).card := Finset.card_filter_le _ _
    _ = size := Finset.card_range size

theorem bitmapPopcount_lt_of_clear (bm : Nat → Bool) (size i : Nat)
    (hi : i < size) (hbit : bm i = false) : bitmapPopcount bm size < size := by
  unfold bitmapPopcount
  have hsub : (Finset.range size).filter (fun j => bm j = true) ⊆
      (Finset.range size).erase i := by
    intro j hj
    rw [Finset.mem_filter] at hj
    rw [Finset.mem_erase]
    refine ⟨?_, hj.1⟩
    intro hji
    rw [hji] at hj
    rw [hj.2] at hbit
    exact Bool.noConfusion hbit
  calc ((Finset.range size).filter (fun j => bm j = true)).card
      ≤ ((Finset.range size).erase i).card := Finset.card_le_card hsub
    _ = size - 1 := by rw [Finset.card_erase_of_mem (Finset.mem_range.mpr hi),
                           Finset.card_range]
    _ < size := by omega

theorem bitmapPopcount_clear_bit (bm : Nat → Bool) (size i : Nat)
    (hi : i < size) (hbit : bm i = true) :
    bitmapPopcount (fun j => if j = i then false else bm j) size =
      bitmapPopcount bm size - 1 := by
  unfold bitmapPopcount
  have hset : (Finset.range size).filter
        (fun j => (if j = i then false else bm j) = true) =
      ((Finset.range size).filter (fun j => bm j = true)).erase i := by
    ext j
    by_cases hji : j = i
    · subst hji
      simp [Finset.mem_filter]
    · simp [Finset.mem_filter, Finset.mem_erase, hji]
  rw [hset, Finset.card_erase_of_mem]
  rw [Finset.mem_filter]
  exact ⟨Finset.mem_range.mpr hi, hbit⟩

theorem bitmapPopcount_set_bit (bm : Nat → Bool) (size i : Nat)
    (hi : i < size) (hbit : bm i = false) :
    bitmapPopcount (fun j => if j = i then true else bm j) size =
      bitmapPopcount bm size + 1 := by
  unfold bitmapPopcount
  have hset : (Finset.range size).filter
        (fun j => (if j = i then true else bm j) = true) =
      insert i ((Finset.range size).filter (fun j => bm j = true)) := by
    ext j
    by_cases hji : j = i
    · subst hji
      simp [Finset.mem_filter, Finset.mem_range.mpr hi]
    · simp [Finset.mem_filter, Finset.mem_insert, hji]
  rw [hset, Finset.card_insert_of_not_mem]
  rw [Finset.mem_filter]
  intro hmem
  rw [hmem.2] at hbit
  exact Bool.noConfusion hbit

/-- C6: for a bitmap of the given size whose superblock free counter
equals its popcount, both the allocate operation get_first_free_bit
(clear lowest free bit, decrement counter; no change when exhausted) and
the free operation put_free_bit on a currently allocated in-range index
(set bit, increment counter) preserve the equality of the counter and the
popcount.  The three bitmaps (inode, block, inode-data) instantiate these
two functions through get_free_inode / get_free_block / get_free_id_entry
and put_inode / put_block / put_inode_data_entry. -/
theorem C6_bitmap_consistency (bm : Nat → Bool) (size counter i : Nat)
    (hc : counter = bitmapPopcount bm size)
    (hsize : size < U32_MOD) (hi : i < size) (hbit : bm i = false) :
    (get_first_free_bit bm size counter).2.2 =
      bitmapPopcount (get_first_free_bit bm size counter).2.1 size ∧
    (put_free_bit bm size i counter).2.2 =
      bitmapPopcount (put_free_bit bm size i counter).2.1 size := by
  constructor
  · rcases hfind : (List.range size).find? (fun k => bm k) with _ | j
    · have hff : find_first_bit bm size = size := by
        unfold find_first_bit
        rw [hfind]
      simp [get_first_free_bit, hff, hc]
    · have hj1 : bm j = true := List.find?_some hfind
      have hj2 : j < size := List.mem_range.mp (List.mem_of_find?_eq_some hfind)
      have hff : find_first_bit bm size = j := by
        unfold find_first_bit
        rw [hfind]
      have hjin : j ∈ (Finset.range size).filter (fun k => bm k = true) := by
        rw [Finset.mem_filter]
        exact ⟨Finset.mem_range.mpr hj2, hj1⟩
      have hpos : 1 ≤ counter := by
        rw [hc]
        exact Nat.one_le_iff_ne_zero.mpr
          (Finset.card_ne_zero_of_mem hjin)
      have hcle : counter ≤ size := hc ▸ bitmapPopcount_le bm size
      simp only [get_first_free_bit, hff]
      rw [if_neg (by omega)]
      dsimp only
      rw [bitmapPopcount_clear_bit bm size j hj2 hj1, ← hc]
      simp only [U32_MOD] at hsize ⊢
      omega
  · have hcnt : counter < size := by
      rw [hc]
      exact bitmapPopcount_lt_of_clear bm size i hi hbit
    simp only [put_free_bit]
    rw [if_neg (by omega)]
    dsimp only
    rw [bitmapPopcount_set_bit bm size i hi hbit, ← hc]
    simp only [U32_MOD] at hsize ⊢
    omega

/-- C6 witness: the theorem applied to the concrete bitmap over 4 indices
whose only free bit is 1, freeing index 2. -/
theorem C6_witness :
    (get_first_free_bit (fun j => j == 1) 4 1).2.2 =
      bitmapPopcount (get_first_free_bit (fun j => j == 1) 4 1).2.1 4 ∧
    (put_free_bit (fun j => j == 1) 4 2 1).2.2 =
      bitmapPopcount (put_free_bit (fun j => j == 1) 4 2 1).2.1 4 :=
  C6_bitmap_consistency (fun j => j == 1) 4 1 2 (by decide) (by decide)
    (by decide) (by decide)

/-! Claim C8 (snapshot id selection). -/

theorem first_absent_id_spec (snaps : Nat → SnapInfo) (fuel : Nat) :
    ∀ k, (∃ m, k ≤ m ∧ m < k + fuel ∧ snapshot_id_present snaps m = false) →
    snapshot_id_present snaps (first_absent_id snaps k fuel) = false ∧
    k ≤ first_absent_id snaps k fuel ∧
    ∀ m, k ≤ m → m < first_absent_id snaps k fuel →
      snapshot_id_present snaps m = true := by
  induction fuel with
  | zero =>
    intro k hex
    obtain ⟨m, h1, h2, _⟩ := hex
    omega
  | succ fuel ih =>
    intro k hex
    unfold first_absent_id
    by_cases hp : snapshot_id_present snaps k = true
    · rw [if_pos hp]
      have hex2 : ∃ m, k + 1 ≤ m ∧ m < k + 1 + fuel ∧
          snapshot_id_present snaps m = false := by
        obtain ⟨m, h1, h2, h3⟩ := hex
        have hmk : m ≠ k := by
          intro he
          rw [he, hp] at h3
          exact Bool.noConfusion h3
        exact ⟨m, by omega, by omega, h3⟩
      obtain ⟨g1, g2, g3⟩ := ih (k + 1) hex2
      refine ⟨g1, by omega, ?_⟩
      intro m hm1 hm2
      by_cases hmk : m = k
      · rw [hmk]
        exact hp
      · exact g3 m (by omega) hm2
    · rw [if_neg hp]
      have hp2 : snapshot_id_present snaps k = false := by
        cases hB : snapshot_id_present snaps k
        · rfl
        · exact absurd hB hp
      exact ⟨hp2, Nat.le_refl k, fun m h1 h2 => absurd h1 (by omega)⟩

theorem exists_absent_id (snaps : Nat → SnapInfo) :
    ∃ m, 1 ≤ m ∧ m < 1 + OUICHEFS_MAX_SNAPSHOTS ∧
      snapshot_id_present snaps m = false := by
  by_contra hcon
  push_neg at hcon
  have hsub : Finset.Icc 1 OUICHEFS_MAX_SNAPSHOTS ⊆
      (Finset.Icc 1 (OUICHEFS_MAX_SNAPSHOTS - 1)).image (fun j => (snaps j).id) := by
    intro m hm
    rw [Finset.mem_Icc] at hm
    have hpres : snapshot_id_present snaps m = true := by
      cases hB : snapshot_id_present snaps m
      · exact absurd hB (hcon m hm.1 (by omega))
      · rfl
    rw [snapshot_id_present, List.any_eq_true] at hpres
    obtain ⟨j, hj, hje⟩ := hpres
    rw [List.mem_range'_1] at hj
    rw [beq_iff_eq] at hje
    rw [Finset.mem_image]
    refine ⟨j, Finset.mem_Icc.mpr ⟨hj.1, by omega⟩, hje⟩
  have h1 : (Finset.Icc 1 OUICHEFS_MAX_SNAPSHOTS).card = OUICHEFS_MAX_SNAPSHOTS := by
    rw [Nat.card_Icc]
    omega
  have h2 : ((Finset.Icc 1 (OUICHEFS_MAX_SNAPSHOTS - 1)).image
      (fun j => (snaps j).id)).card ≤ OUICHEFS_MAX_SNAPSHOTS - 1 := by
    calc ((Finset.Icc 1 (OUICHEFS_MAX_SNAPSHOTS - 1)).image
          (fun j => (snaps j).id)).card
        ≤ (Finset.Icc 1 (OUICHEFS_MAX_SNAPSHOTS - 1)).card := Finset.card_image_le
      _ = OUICHEFS_MAX_SNAPSHOTS - 1 := by
        rw [Nat.card_Icc]
        omega
  have h3 := Finset.card_le_card hsub
  rw [h1] at h3
  have h4 : OUICHEFS_MAX_SNAPSHOTS = 32 := rfl
  omega

theorem find_smallest_free_id_spec (snaps : Nat → SnapInfo) :
    snapshot_id_present snaps (find_smallest_free_id snaps) = false ∧
    1 ≤ find_smallest_free_id snaps ∧
    ∀ m, 1 ≤ m → m < find_smallest_free_id snaps →
      snapshot_id_present snaps m = true :=
  first_absent_id_spec snaps OUICHEFS_MAX_SNAPSHOTS 1 (exists_absent_id snaps)

/-- C8: id selection of snapshot_create.  Given a free slot k: a supplied
nonzero id already held by some slot is rejected with -EINVAL and the
state is unchanged; a supplied nonzero fresh id is recorded exactly (once
freeze and the inode copy succeed) leaving every other slot untouched;
and a supplied 0 records the smallest positive integer not present in the
snapshot table. -/
theorem C8_snapshot_create_id_selection {D : Type} (st : SnapState D)
    (s_id k : Nat) (now freezeRet copyRet : Int) (copyUpd : D → D)
    (hk : snapshot_find_free_index st.snapshots = some k) :
    (s_id ≠ 0 → snapshot_id_present st.snapshots s_id = true →
      ouichefs_snapshot_create st s_id now freezeRet copyRet copyUpd =
        (-errInval, st)) ∧
    (s_id ≠ 0 → snapshot_id_present st.snapshots s_id = false →
      freezeRet = 0 → copyRet = 0 →
      (ouichefs_snapshot_create st s_id now freezeRet copyRet copyUpd).1 = 0 ∧
      (ouichefs_snapshot_create st s_id now freezeRet copyRet copyUpd).2.snapshots k
        = ⟨now, s_id⟩ ∧
      ∀ j, j ≠ k →
        (ouichefs_snapshot_create st s_id now freezeRet copyRet copyUpd).2.snapshots j
          = st.snapshots j) ∧
    (s_id = 0 → freezeRet = 0 → copyRet = 0 →
      (ouichefs_snapshot_create st s_id now freezeRet copyRet copyUpd).1 = 0 ∧
      (ouichefs_snapshot_create st s_id now freezeRet copyRet copyUpd).2.snapshots k
        = ⟨now, find_smallest_free_id st.snapshots⟩ ∧
      snapshot_id_present st.snapshots
        ((ouichefs_snapshot_create st s_id now freezeRet copyRet copyUpd).2.snapshots k).id
        = false ∧
      1 ≤ ((ouichefs_snapshot_create st s_id now freezeRet copyRet copyUpd).2.snapshots k).id ∧
      ∀ m, 1 ≤ m → snapshot_id_present st.snapshots m = false →
        ((ouichefs_snapshot_create st s_id now freezeRet copyRet copyUpd).2.snapshots k).id ≤ m) := by
  refine ⟨?_, ?_, ?_⟩
  · intro hs hpres
    unfold ouichefs_snapshot_create
    rw [hk]
    dsimp only
    rw [if_neg hs, if_pos hpres]
  · intro hs hpres hfr hcp
    unfold ouichefs_snapshot_create
    rw [hk, hfr, hcp]
    dsimp only
    rw [if_neg hs]
    have hpres2 : ¬ snapshot_id_present st.snapshots s_id = true := by
      rw [hpres]
      exact Bool.noConfusion
    rw [if_neg hpres2]
    dsimp only
    rw [if_neg (by omega : ¬ (0 : Int) ≠ 0), if_neg (by omega : ¬ (0 : Int) ≠ 0)]
    refine ⟨rfl, ?_, ?_⟩
    · dsimp only
      rw [if_pos rfl]
    · intro j hj
      dsimp only
      rw [if_neg hj]
  · intro hs hfr hcp
    subst hs
    unfold ouichefs_snapshot_create
    rw [hk, hfr, hcp]
    dsimp only
    rw [if_pos rfl]
    dsimp only
    rw [if_neg (by omega : ¬ (0 : Int) ≠ 0), if_neg (by omega : ¬ (0 : Int) ≠ 0)]
    dsimp only
    rw [if_pos rfl]
    obtain ⟨g1, g2, g3⟩ := find_smallest_free_id_spec st.snapshots
    refine ⟨rfl, rfl, g1, g2, ?_⟩
    intro m hm1 hm2
    by_contra hlt
    push_neg at hlt
    have hlt2 : m < find_smallest_free_id st.snapshots := hlt
    have := g3 m hm1 hlt2
    rw [this] at hm2
    exact Bool.noConfusion hm2

/-- A table holding ids 1 and 3 in slots 1 and 2; slot 3 is the first
free slot and the smallest absent positive id is 2. -/
def w8Snaps : Nat → SnapInfo := fun j =>
  if j = 1 then ⟨10, 1⟩ else if j = 2 then ⟨20, 3⟩ else ⟨0, 0⟩

/-- The id-selection witness state over a trivial disk component. -/
def w8St : SnapState Unit := ⟨w8Snaps, ()⟩

/-- C8 witness: creating with auto-id on the concrete table records the
smallest absent positive id, namely 2, in the first free slot 3. -/
theorem C8_witness :
    (ouichefs_snapshot_create w8St 0 11 0 0 id).2.snapshots 3 =
      ⟨11, find_smallest_free_id w8Snaps⟩ ∧
    find_smallest_free_id w8Snaps = 2 :=
  ⟨((C8_snapshot_create_id_selection w8St 0 3 11 0 0 id (by decide)).2.2
      rfl rfl rfl).2.1, by decide⟩

/-! Claim C4 (put_inode_data). -/

theorem put_block_frees_last_ref (stb : OuicheFs) (bno : Nat)
    (hro : ∀ b, stb.readOk b = true)
    (hb1 : stb.dataStart ≤ bno) (hb2 : bno < stb.nrBlocks)
    (hrc : stb.refcount bno = 1) :
    (ouichefs_put_block stb bno .inodeData).bfree bno = true ∧
    (ouichefs_put_block stb bno .inodeData).content bno = (fun _ => 0) ∧
    (ouichefs_put_block stb bno .inodeData).refcount bno = 0 := by
  unfold ouichefs_put_block setRef setContent bitmap_put_block put_free_bit
  dsimp only
  rw [if_neg (by omega), if_neg (by rw [hro]; exact Bool.noConfusion),
      if_neg (by omega), if_pos (by omega),
      if_neg (by rw [hro]; exact Bool.noConfusion), if_neg (by omega)]
  dsimp only
  rw [if_pos rfl]
  refine ⟨rfl, ?_, ?_⟩
  · rw [if_pos rfl]
  · rw [if_pos rfl, hrc]

theorem setIData_nrIdEntries (st : IdFs) (ino slot v : Nat) :
    (setIData st ino slot v).nrIdEntries = st.nrIdEntries := rfl

theorem setIData_nrInodes (st : IdFs) (ino slot v : Nat) :
    (setIData st ino slot v).nrInodes = st.nrInodes := rfl

theorem setIData_iData_self (st : IdFs) (ino slot v : Nat) :
    (setIData st ino slot v).iData ino slot = v := by
  unfold setIData
  dsimp only
  rw [if_pos ⟨rfl, rfl⟩]

theorem setEntry_nrInodes (st : IdFs) (bno shift : Nat) (e : InodeData) :
    (setEntry st bno shift e).nrInodes = st.nrInodes := rfl

theorem setEntry_entries_self (st : IdFs) (bno shift : Nat) (e : InodeData) :
    (setEntry st bno shift e).entries bno shift = e := by
  unfold setEntry
  dsimp only
  rw [if_pos ⟨rfl, rfl⟩]

theorem put_inode_data_entry_nrInodes (st : IdFs) (idx : Nat) :
    (put_inode_data_entry st idx).nrInodes = st.nrInodes := rfl

theorem put_inode_data_entry_ifree (st : IdFs) (idx : Nat) :
    (put_inode_data_entry st idx).ifree = st.ifree := rfl

theorem clearEntriesBlock_iData (st : IdFs) (bno : Nat) :
    (clearEntriesBlock st bno).iData = st.iData := rfl

theorem clearEntriesBlock_blk (st : IdFs) (bno : Nat) :
    (clearEntriesBlock st bno).blk = st.blk := rfl

theorem clearEntriesBlock_nrInodes (st : IdFs) (bno : Nat) :
    (clearEntriesBlock st bno).nrInodes = st.nrInodes := rfl

theorem clearEntriesBlock_entries_self (st : IdFs) (bno s : Nat) :
    (clearEntriesBlock st bno).entries bno s = zeroInodeData := by
  unfold clearEntriesBlock
  dsimp only
  rw [if_pos rfl]

theorem check_free_ino_frees (stX : IdFs) (ino : Nat)
    (hz : ∀ s2, s2 < OUICHEFS_MAX_SNAPSHOTS → stX.iData ino s2 = 0)
    (hino : ino ≤ stX.nrInodes) :
    (ouichefs_check_free_ino stX ino).ifree ino = true := by
  unfold ouichefs_check_free_ino put_inode put_free_bit
  rw [if_pos ?hall]
  case hall =>
    rw [List.all_eq_true]
    intro i hi
    rw [List.mem_range] at hi
    simp [hz i hi]
  dsimp only
  rw [if_neg (by omega)]
  dsimp only
  rw [if_pos rfl]

/-- C4: ouichefs_put_inode_data on a valid slot clears i_data[snap],
decrements the entry refcount; on reaching zero it clears the entry to
zero, frees the hosting block via put_block (zeroing it and returning it
to the block bitmap) and clears its inode-data index slot when no other
entry of the block is live, and frees the inode number in the inode
bitmap once every slot of the inode is zero. -/
theorem C4_put_inode_data (st : IdFs) (ino snap idx bno : Nat) (ent : InodeData)
    (hidx : st.iData ino snap = idx)
    (hbno : st.ididxBlocks (idGroup idx) = bno)
    (hent : st.entries bno (idShift idx) = ent)
    (h1 : idx ≠ 0) (h2 : idx < st.nrIdEntries)
    (hro : ∀ b, st.blk.readOk b = true)
    (hb1 : st.blk.dataStart ≤ bno) (hb2 : bno < st.blk.nrBlocks)
    (hrc1 : 1 ≤ ent.refcount) (hrc2 : ent.refcount ≤ 255) :
    (ouichefs_put_inode_data st ino snap).iData ino snap = 0 ∧
    (2 ≤ ent.refcount →
      (ouichefs_put_inode_data st ino snap).entries bno (idShift idx) =
        { ent with refcount := ent.refcount - 1 }) ∧
    (ent.refcount = 1 →
      (ouichefs_put_inode_data st ino snap).entries bno (idShift idx) =
        zeroInodeData) ∧
    (ent.refcount = 1 →
      (∀ i, i < OUICHEFS_IDE_PER_DATA_BLOCK → i ≠ idShift idx →
        (st.entries bno i).refcount = 0) →
      st.blk.refcount bno = 1 →
      (ouichefs_put_inode_data st ino snap).blk.bfree bno = true ∧
      (ouichefs_put_inode_data st ino snap).blk.content bno = (fun _ => 0) ∧
      (ouichefs_put_inode_data st ino snap).ididxBlocks (idGroup idx) = 0) ∧
    ((∀ s2, s2 < OUICHEFS_MAX_SNAPSHOTS → s2 ≠ snap → st.iData ino s2 = 0) →
      ino ≤ st.nrInodes →
      (ouichefs_put_inode_data st ino snap).ifree ino = true) := by
  have hiz : ∀ s2, s2 < OUICHEFS_MAX_SNAPSHOTS →
      (∀ s3, s3 < OUICHEFS_MAX_SNAPSHOTS → s3 ≠ snap → st.iData ino s3 = 0) →
      (setIData st ino snap 0).iData ino s2 = 0 := by
    intro s2 _hs2 hall
    unfold setIData
    dsimp only
    by_cases hsnap : s2 = snap
    · rw [if_pos ⟨rfl, hsnap⟩]
    · rw [if_neg (by intro hand; exact hsnap hand.2)]
      exact hall s2 _hs2 hsnap
  have hput : ouichefs_put_inode_data st ino snap =
      (let st0 := setIData st ino snap 0
       let st1 := setEntry st0 bno (idShift idx)
         { ent with refcount := ent.refcount - 1 }
       if ent.refcount - 1 = 0 then
         let st2 := setEntry st1 bno (idShift idx) zeroInodeData
         if (List.range OUICHEFS_IDE_PER_DATA_BLOCK).any
             (fun i => 0 < (st2.entries bno i).refcount) then
           ouichefs_check_free_ino (put_inode_data_entry st2 idx) ino
         else
           let st3 := clearEntriesBlock
             { st2 with blk := ouichefs_put_block st2.blk bno .inodeData } bno
           let st4 := { st3 with ididxBlocks :=
             fun g => if g = idGroup idx then 0 else st3.ididxBlocks g }
           ouichefs_check_free_ino (put_inode_data_entry st4 idx) ino
       else ouichefs_check_free_ino st1 ino) := by
    unfold ouichefs_put_inode_data
    dsimp only
    rw [hidx]
    rw [setIData_nrIdEntries, setIData_blk, setIData_ididxBlocks,
        setIData_entries, hbno, hent]
    rw [if_neg (by push_neg; exact ⟨h1, by omega⟩)]
    rw [if_neg (by rw [hro]; exact Bool.noConfusion)]
    rw [if_neg (by push_neg; omega)]
    rw [if_neg (by rw [hro]; exact Bool.noConfusion)]
    rw [if_neg (by omega)]
    have hmod : (ent.refcount + 255) % 256 = ent.refcount - 1 := by omega
    rw [hmod]
  rw [hput]
  dsimp only
  by_cases hone : ent.refcount = 1
  · rw [hone]
    rw [if_pos (by omega)]
    by_cases hS : ((List.range OUICHEFS_IDE_PER_DATA_BLOCK).any
        (fun i => 0 < ((setEntry
          (setEntry (setIData st ino snap 0) bno (idShift idx)
            { ent with refcount := 1 - 1 })
          bno (idShift idx) zeroInodeData).entries bno i).refcount)) = true
    · rw [if_pos hS]
      refine ⟨?_, ?_, ?_, ?_, ?_⟩
      · rw [check_free_ino_iData, put_inode_data_entry_iData, setEntry_iData,
            setEntry_iData, setIData_iData_self]
      · intro habs
        omega
      · intro _
        rw [check_free_ino_entries, put_inode_data_entry_entries,
            setEntry_entries_self]
      · intro _ hothers _
        exfalso
        rw [List.any_eq_true] at hS
        obtain ⟨i, hi, hpos⟩ := hS
        rw [List.mem_range] at hi
        rw [decide_eq_true_eq] at hpos
        by_cases hish : i = idShift idx
        · rw [hish, setEntry_entries_self] at hpos
          exact Nat.lt_irrefl 0 hpos
        · have : (setEntry (setEntry (setIData st ino snap 0) bno (idShift idx)
              { ent with refcount := 1 - 1 }) bno (idShift idx)
              zeroInodeData).entries bno i = st.entries bno i := by
            unfold setEntry setIData
            dsimp only
            rw [if_neg (by intro hand; exact hish hand.2),
                if_neg (by intro hand; exact hish hand.2)]
          rw [this, hothers i hi hish] at hpos
          exact Nat.lt_irrefl 0 hpos
      · intro hall hino
        refine check_free_ino_frees _ ino ?_ (by
          rw [put_inode_data_entry_nrInodes, setEntry_nrInodes,
              setEntry_nrInodes, setIData_nrInodes]
          exact hino)
        intro s2 hs2
        rw [put_inode_data_entry_iData, setEntry_iData, setEntry_iData]
        exact hiz s2 hs2 hall
    · rw [if_neg hS]
      refine ⟨?_, ?_, ?_, ?_, ?_⟩
      · rw [check_free_ino_iData, put_inode_data_entry_iData]
        dsimp only
        rw [clearEntriesBlock_iData]
        dsimp only
        rw [setEntry_iData, setEntry_iData, setIData_iData_self]
      · intro habs
        omega
      · intro _
        rw [check_free_ino_entries, put_inode_data_entry_entries]
        dsimp only
        rw [clearEntriesBlock_entries_self]
      · intro _ _hothers hrcb
        have hblk : (setEntry (setEntry (setIData st ino snap 0) bno (idShift idx)
            { ent with refcount := 1 - 1 }) bno (idShift idx)
            zeroInodeData).blk = st.blk := by
          rw [setEntry_blk, setEntry_blk, setIData_blk]
        obtain ⟨g1, g2, g3⟩ := put_block_frees_last_ref st.blk bno hro hb1 hb2 hrcb
        refine ⟨?_, ?_, ?_⟩
        · rw [check_free_ino_blk, put_inode_data_entry_blk]
          dsimp only
          rw [clearEntriesBlock_blk]
          dsimp only
          rw [hblk]
          exact g1
        · rw [check_free_ino_blk, put_inode_data_entry_blk]
          dsimp only
          rw [clearEntriesBlock_blk]
          dsimp only
          rw [hblk]
          exact g2
        · rw [check_free_ino_ididxBlocks, put_inode_data_entry_ididxBlocks]
          dsimp only
          rw [if_pos rfl]
      · intro hall hino
        refine check_free_ino_frees _ ino ?_ (by
          rw [put_inode_data_entry_nrInodes]
          dsimp only
          rw [clearEntriesBlock_nrInodes]
          dsimp only
          rw [setEntry_nrInodes, setEntry_nrInodes, setIData_nrInodes]
          exact hino)
        intro s2 hs2
        rw [put_inode_data_entry_iData]
        dsimp only
        rw [clearEntriesBlock_iData]
        dsimp only
        rw [setEntry_iData, setEntry_iData]
        exact hiz s2 hs2 hall
  · rw [if_neg (by omega)]
    refine ⟨?_, ?_, ?_, ?_, ?_⟩
    · rw [check_free_ino_iData, setEntry_iData, setIData_iData_self]
    · intro _
      rw [check_free_ino_entries, setEntry_entries_self]
    · intro habs
      exact absurd habs hone
    · intro habs
      exact absurd habs hone
    · intro hall hino
      refine check_free_ino_frees _ ino ?_ (by
        rw [setEntry_nrInodes, setIData_nrInodes]
        exact hino)
      intro s2 hs2
      rw [setEntry_iData]
      exact hiz s2 hs2 hall

/-- A valid one-inode state for exercising put_inode_data: inode 1 in
snapshot slot 1 maps to entry index 1, hosted at offset 1 of block 9 with
refcount 1 and index_block 10. -/
def c4W : IdFs :=
  { blk :=
    { dataStart := 8
      metaStart := 7
      nrBlocks := 16
      refcount := fun b => if b = 9 then 1 else 0
      content := fun _ _ => 0
      bfree := fun b => decide (10 ≤ b ∧ b < 16)
      nrFreeBlocks := 6
      readOk := fun _ => true }
    iData := fun i s => if i = 1 ∧ s = 1 then 1 else 0
    ididxBlocks := fun g => if g = 0 then 9 else 0
    entries := fun b s => if b = 9 ∧ s = 1 then ⟨1, 10⟩ else zeroInodeData
    idFree := fun i => decide (2 ≤ i ∧ i < 8)
    nrIdEntries := 8
    nrFreeIdEntries := 6
    ifree := fun i => decide (2 ≤ i ∧ i < 4)
    nrInodes := 4
    nrFreeInodes := 2
    idIdxStart := 6 }

/-- C4 witness: the theorem applied to the concrete state c4W at inode 1,
slot 1. -/
theorem C4_witness :
    (ouichefs_put_inode_data c4W 1 1).iData 1 1 = 0 ∧
    (2 ≤ (⟨1, 10⟩ : InodeData).refcount →
      (ouichefs_put_inode_data c4W 1 1).entries 9 (idShift 1) =
        { (⟨1, 10⟩ : InodeData) with refcount := (⟨1, 10⟩ : InodeData).refcount - 1 }) ∧
    ((⟨1, 10⟩ : InodeData).refcount = 1 →
      (ouichefs_put_inode_data c4W 1 1).entries 9 (idShift 1) = zeroInodeData) ∧
    ((⟨1, 10⟩ : InodeData).refcount = 1 →
      (∀ i, i < OUICHEFS_IDE_PER_DATA_BLOCK → i ≠ idShift 1 →
        (c4W.entries 9 i).refcount = 0) →
      c4W.blk.refcount 9 = 1 →
      (ouichefs_put_inode_data c4W 1 1).blk.bfree 9 = true ∧
      (ouichefs_put_inode_data c4W 1 1).blk.content 9 = (fun _ => 0) ∧
      (ouichefs_put_inode_data c4W 1 1).ididxBlocks (idGroup 1) = 0) ∧
    ((∀ s2, s2 < OUICHEFS_MAX_SNAPSHOTS → s2 ≠ 1 → c4W.iData 1 s2 = 0) →
      1 ≤ c4W.nrInodes →
      (ouichefs_put_inode_data c4W 1 1).ifree 1 = true) :=
  C4_put_inode_data c4W 1 1 1 9 ⟨1, 10⟩ rfl rfl rfl (by decide) (by decide)
    (fun _ => rfl) (by decide) (by decide) (by decide) (by decide)

/-! Claim C5 (link_inode_data). -/

/-- A consistent state in which inode 1 is already linked: slots 0 and 1
both name entry index 1 (refcount 2), whose index_block 10 has block
refcount 2. -/
def c5Cx : IdFs :=
  { blk :=
    { dataStart := 8
      metaStart := 7
      nrBlocks := 16
      refcount := fun b => if b = 9 then 1 else if b = 10 then 2 else 0
      content := fun _ _ => 0
      bfree := fun b => decide (11 ≤ b ∧ b < 16)
      nrFreeBlocks := 5
      readOk := fun _ => true }
    iData := fun i s => if i = 1 ∧ (s = 0 ∨ s = 1) then 1 else 0
    ididxBlocks := fun g => if g = 0 then 9 else 0
    entries := fun b s => if b = 9 ∧ s = 1 then ⟨2, 10⟩ else zeroInodeData
    idFree := fun i => decide (2 ≤ i ∧ i < 8)
    nrIdEntries := 8
    nrFreeIdEntries := 6
    ifree := fun i => decide (2 ≤ i ∧ i < 4)
    nrInodes := 4
    nrFreeInodes := 2
    idIdxStart := 6 }

/-- C5 counterexample: in c5Cx the pair (from, to) = (0, 1) has
i_data[from] = 1, a valid inode-data index, yet link_inode_data returns 0
without incrementing either the entry refcount (stays 2, the claim
requires 3) or the index_block refcount (stays 2): the C code returns
early when the two slots already name the same entry. -/
theorem C5_counterexample :
    c5Cx.iData 1 0 = 1 ∧
    (ouichefs_link_inode_data c5Cx 1 0 1).1 = 0 ∧
    ((ouichefs_link_inode_data c5Cx 1 0 1).2.entries 9 1).refcount = 2 ∧
    (c5Cx.entries 9 1).refcount = 2 ∧
    (ouichefs_link_inode_data c5Cx 1 0 1).2.blk.refcount 10 = 2 ∧
    c5Cx.blk.refcount 10 = 2 := by decide

theorem put_block_inodeData_refcount_frame (stb : OuicheFs) (bno b : Nat)
    (hb : b ≠ bno) :
    (ouichefs_put_block stb bno .inodeData).refcount b = stb.refcount b := by
  unfold ouichefs_put_block setRef setContent bitmap_put_block put_free_bit
  dsimp only
  split_ifs <;> first
    | rfl
    | (dsimp only; rw [if_neg hb])

theorem setEntry_entries_other (st : IdFs) (bno shift : Nat) (e : InodeData)
    (b s : Nat) (hne2 : ¬(b = bno ∧ s = shift)) :
    (setEntry st bno shift e).entries b s = st.entries b s := by
  unfold setEntry
  dsimp only
  rw [if_neg hne2]

theorem put_inode_data_preserves_live_entry (st : IdFs) (ino snap b s : Nat)
    (hs : s < OUICHEFS_IDE_PER_DATA_BLOCK)
    (hlive : 0 < (st.entries b s).refcount)
    (hne : b ≠ st.ididxBlocks (idGroup (st.iData ino snap)) ∨
           s ≠ idShift (st.iData ino snap)) :
    (ouichefs_put_inode_data st ino snap).entries b s = st.entries b s := by
  have hkey : ¬(b = st.ididxBlocks (idGroup (st.iData ino snap)) ∧
      s = idShift (st.iData ino snap)) := by
    intro hand
    rcases hne with hb | hs2
    · exact hb hand.1
    · exact hs2 hand.2
  unfold ouichefs_put_inode_data
  dsimp only
  simp only [setIData_nrIdEntries, setIData_blk, setIData_ididxBlocks,
    setIData_entries]
  split_ifs with hA hB hC hD hE hF hG
  · rw [check_free_ino_entries, setIData_entries]
  · rw [check_free_ino_entries, setIData_entries]
  · rw [check_free_ino_entries, setIData_entries]
  · rw [check_free_ino_entries, setIData_entries]
  · rw [check_free_ino_entries, setIData_entries]
  · rw [check_free_ino_entries, put_inode_data_entry_entries]
    rw [setEntry_entries_other _ _ _ _ _ _ hkey,
        setEntry_entries_other _ _ _ _ _ _ hkey, setIData_entries]
  · rw [check_free_ino_entries, put_inode_data_entry_entries]
    dsimp only
    by_cases hbe : b = st.ididxBlocks (idGroup (st.iData ino snap))
    · exfalso
      have hs2 : s ≠ idShift (st.iData ino snap) := by
        rcases hne with hb | hs2
        · exact absurd hbe hb
        · exact hs2
      apply hG
      rw [List.any_eq_true]
      refine ⟨s, List.mem_range.mpr hs, ?_⟩
      rw [decide_eq_true_eq]
      rw [setEntry_entries_other _ _ _ _ _ _ (fun hand => hs2 hand.2),
          setEntry_entries_other _ _ _ _ _ _ (fun hand => hs2 hand.2),
          setIData_entries, ← hbe]
      exact hlive
    · unfold clearEntriesBlock
      dsimp only
      rw [if_neg hbe]
      rw [setEntry_entries_other _ _ _ _ _ _ hkey,
          setEntry_entries_other _ _ _ _ _ _ hkey, setIData_entries]
  · rw [check_free_ino_entries]
    rw [setEntry_entries_other _ _ _ _ _ _ hkey, setIData_entries]

theorem put_inode_data_blk_refcount_frame (st : IdFs) (ino snap b : Nat)
    (hb : b ≠ st.ididxBlocks (idGroup (st.iData ino snap))) :
    (ouichefs_put_inode_data st ino snap).blk.refcount b = st.blk.refcount b := by
  unfold ouichefs_put_inode_data
  dsimp only
  simp only [setIData_nrIdEntries, setIData_blk, setIData_ididxBlocks,
    setIData_entries]
  split_ifs with hA hB hC hD hE hF hG
  · rw [check_free_ino_blk, setIData_blk]
  · rw [check_free_ino_blk, setIData_blk]
  · rw [check_free_ino_blk, setIData_blk]
  · rw [check_free_ino_blk, setIData_blk]
  · rw [check_free_ino_blk, setIData_blk]
  · rw [check_free_ino_blk, put_inode_data_entry_blk, setEntry_blk,
        setEntry_blk, setIData_blk]
  · rw [check_free_ino_blk, put_inode_data_entry_blk]
    dsimp only
    rw [clearEntriesBlock_blk]
    dsimp only
    rw [setEntry_blk, setEntry_blk, setIData_blk]
    exact put_block_inodeData_refcount_frame st.blk _ b hb
  · rw [check_free_ino_blk, setEntry_blk, setIData_blk]

/-- C5 amended: on a well-formed state (valid entry index, reads succeed,
refcounts below their u8 bounds, the destination slot's entry - when
occupied - hosted apart from this entry and its index block), whenever
i_data[from] differs from i_data[to], link_inode_data returns 0, sets
i_data[to] := i_data[from], increments the entry's refcount and
increments (via get_block) the block refcount of the entry's index_block;
when the two slots already coincide it changes nothing (counterexample
theorem). -/
theorem C5_link_inode_data_amended (st : IdFs)
    (ino fromSlot toSlot idx bno : Nat) (ent : InodeData)
    (hidx : st.iData ino fromSlot = idx)
    (hbno : st.ididxBlocks (idGroup idx) = bno)
    (hent : st.entries bno (idShift idx) = ent)
    (hne : st.iData ino fromSlot ≠ st.iData ino toSlot)
    (h1 : idx ≠ 0) (h2 : idx < st.nrIdEntries)
    (hro : ∀ b, st.blk.readOk b = true)
    (hb1 : st.blk.dataStart ≤ bno) (hb2 : bno < st.blk.nrBlocks)
    (hrc1 : 1 ≤ ent.refcount) (hrc2 : ent.refcount ≤ 254)
    (hib : st.blk.dataStart ≤ ent.index_block)
    (hibrc : st.blk.refcount ent.index_block ≤ 254)
    (hsep1 : st.iData ino toSlot ≠ 0 →
      st.ididxBlocks (idGroup (st.iData ino toSlot)) ≠ ent.index_block)
    (hsep2 : st.iData ino toSlot ≠ 0 →
      st.ididxBlocks (idGroup (st.iData ino toSlot)) ≠ bno ∨
      idShift (st.iData ino toSlot) ≠ idShift idx) :
    (ouichefs_link_inode_data st ino fromSlot toSlot).1 = 0 ∧
    (ouichefs_link_inode_data st ino fromSlot toSlot).2.iData ino toSlot = idx ∧
    ((ouichefs_link_inode_data st ino fromSlot toSlot).2.entries bno
      (idShift idx)).refcount = ent.refcount + 1 ∧
    (ouichefs_link_inode_data st ino fromSlot toSlot).2.blk.refcount
      ent.index_block = st.blk.refcount ent.index_block + 1 := by
  have hlink : ouichefs_link_inode_data st ino fromSlot toSlot =
      (let st1 := setEntry st bno (idShift idx)
        { ent with refcount := ent.refcount + 1 }
       let st2 := { st1 with
         blk := setRef st.blk ent.index_block (st.blk.refcount ent.index_block + 1) }
       let st3 := if st2.iData ino toSlot ≠ 0
                  then ouichefs_put_inode_data st2 ino toSlot else st2
       (0, setIData st3 ino toSlot idx)) := by
    unfold ouichefs_link_inode_data
    dsimp only
    rw [hidx, hbno, hent]
    rw [if_neg (hidx ▸ hne)]
    rw [if_neg (by push_neg; exact ⟨h1, by omega⟩)]
    rw [if_neg (by rw [hro]; exact Bool.noConfusion)]
    rw [if_neg (by push_neg; omega)]
    rw [if_neg (by rw [hro]; exact Bool.noConfusion)]
    rw [if_neg (by omega : ¬ ent.refcount = 0)]
    have hmod : (ent.refcount + 1) % 256 = ent.refcount + 1 := by omega
    rw [hmod]
    have hget : (ouichefs_get_block
        (setEntry st bno (idShift idx)
          { ent with refcount := ent.refcount + 1 }).blk ent.index_block).2 =
        setRef st.blk ent.index_block (st.blk.refcount ent.index_block + 1) := by
      rw [setEntry_blk]
      unfold ouichefs_get_block
      rw [if_neg (by omega), hro]
      rw [if_neg (fun h => Bool.noConfusion h)]
      have hmod2 : (st.blk.refcount ent.index_block + 1) % 256 =
          st.blk.refcount ent.index_block + 1 := by omega
      rw [hmod2]
    rw [hget]
  rw [hlink]
  dsimp only
  by_cases hocc : st.iData ino toSlot = 0
  · rw [if_neg (by rw [setEntry_iData, hocc]; exact fun h => h rfl)]
    refine ⟨rfl, ?_, ?_, ?_⟩
    · rw [setIData_iData_self]
    · rw [setIData_entries]
      dsimp only
      rw [setEntry_entries_self]
    · rw [setIData_blk]
      dsimp only
      unfold setRef
      dsimp only
      rw [if_pos rfl]
  · rw [if_pos (by rw [setEntry_iData]; exact hocc)]
    have hiData2 : (setEntry st bno (idShift idx)
        { ent with refcount := ent.refcount + 1 }).iData = st.iData := by
      rw [setEntry_iData]
    refine ⟨rfl, ?_, ?_, ?_⟩
    · rw [setIData_iData_self]
    · rw [setIData_entries]
      rw [put_inode_data_preserves_live_entry _ ino toSlot bno (idShift idx)
        (Nat.mod_lt _ (by decide)) ?hlive2 ?hne2]
      case hlive2 =>
        dsimp only
        rw [setEntry_entries_self]
        show 0 < ent.refcount + 1
        omega
      case hne2 =>
        dsimp only
        rw [hiData2, setEntry_ididxBlocks]
        rcases hsep2 hocc with hx | hx
        · exact Or.inl (Ne.symm hx)
        · exact Or.inr (Ne.symm hx)
      dsimp only
      rw [setEntry_entries_self]
    · rw [setIData_blk]
      rw [put_inode_data_blk_refcount_frame _ ino toSlot ent.index_block ?hb3]
      case hb3 =>
        dsimp only
        rw [hiData2, setEntry_ididxBlocks]
        exact Ne.symm (hsep1 hocc)
      dsimp only
      unfold setRef
      dsimp only
      rw [if_pos rfl]

/-- A valid one-inode state with the live slot 0 mapped to entry index 1
(refcount 1, index_block 10) and slot 1 empty. -/
def c5W : IdFs :=
  { blk :=
    { dataStart := 8
      metaStart := 7
      nrBlocks := 16
      refcount := fun b => if b = 9 ∨ b = 10 then 1 else 0
      content := fun _ _ => 0
      bfree := fun b => decide (11 ≤ b ∧ b < 16)
      nrFreeBlocks := 5
      readOk := fun _ => true }
    iData := fun i s => if i = 1 ∧ s = 0 then 1 else 0
    ididxBlocks := fun g => if g = 0 then 9 else 0
    entries := fun b s => if b = 9 ∧ s = 1 then ⟨1, 10⟩ else zeroInodeData
    idFree := fun i => decide (2 ≤ i ∧ i < 8)
    nrIdEntries := 8
    nrFreeIdEntries := 6
    ifree := fun i => decide (2 ≤ i ∧ i < 4)
    nrInodes := 4
    nrFreeInodes := 2
    idIdxStart := 6 }

/-- C5 witness: the amended theorem applied to the concrete state c5W,
linking slot 0 into the empty slot 1. -/
theorem C5_witness :
    (ouichefs_link_inode_data c5W 1 0 1).1 = 0 ∧
    (ouichefs_link_inode_data c5W 1 0 1).2.iData 1 1 = 1 ∧
    ((ouichefs_link_inode_data c5W 1 0 1).2.entries 9 (idShift 1)).refcount =
      (⟨1, 10⟩ : InodeData).refcount + 1 ∧
    (ouichefs_link_inode_data c5W 1 0 1).2.blk.refcount
      (⟨1, 10⟩ : InodeData).index_block =
      c5W.blk.refcount (⟨1, 10⟩ : InodeData).index_block + 1 :=
  C5_link_inode_data_amended c5W 1 0 1 1 9 ⟨1, 10⟩ rfl rfl rfl (by decide)
    (by decide) (by decide) (fun _ => rfl) (by decide) (by decide) (by decide)
    (by decide) (by decide) (by decide) (fun h => absurd rfl h)
    (fun h => absurd rfl h)

/-! Claim C9 (snapshot listing). -/

theorem natDecBytesAux_length_le (fuel : Nat) :
    ∀ n, (natDecBytesAux fuel n).length ≤ fuel := by
  induction fuel with
  | zero =>
    intro n
    exact Nat.le_refl 0
  | succ fuel ih =>
    intro n
    unfold natDecBytesAux
    split
    · exact Nat.succ_le_succ (Nat.zero_le fuel)
    · rw [List.length_append]
      have := ih (n / 10)
      simp only [List.length_cons, List.length_nil]
      omega

theorem natDecBytes_length_le (n : Nat) : (natDecBytes n).length ≤ 10 :=
  natDecBytesAux_length_le 10 n

set_option maxRecDepth 40000 in
theorem pad2_length (n : Nat) (h : n < 100) : (pad2 n).length = 2 := by
  revert n h
  decide

theorem daysInYear_le (y : Nat) : daysInYear y ≤ 366 := by
  unfold daysInYear
  split <;> omega

theorem daysInYear_pos (y : Nat) : 0 < daysInYear y := by
  unfold daysInYear
  split <;> omega

theorem civilYear_snd_lt (days : Nat) :
    ∀ y, (civilYear y days).2 < daysInYear (civilYear y days).1 := by
  induction days using Nat.strong_induction_on with
  | _ days ih =>
    intro y
    rw [civilYear]
    split
    · next h => exact h
    · next h =>
      have hpos := daysInYear_pos y
      exact ih (days - daysInYear y) (by omega) (y + 1)

set_option maxRecDepth 200000 in
theorem monthAndDay_bounds (leap : Bool) :
    ∀ d, d < 366 → (monthAndDay leap d).1 < 100 ∧
      (monthAndDay leap d).2 + 1 < 100 := by
  cases leap <;> decide

theorem brokenDownUTC_bounds (t : Nat) :
    (brokenDownUTC t).mday < 100 ∧ (brokenDownUTC t).mon1 < 100 ∧
    (brokenDownUTC t).hour < 100 ∧ (brokenDownUTC t).min < 100 ∧
    (brokenDownUTC t).sec < 100 := by
  unfold brokenDownUTC
  dsimp only
  have hyd := civilYear_snd_lt (t / 86400) 1970
  have hyd2 : (civilYear 1970 (t / 86400)).2 < 366 :=
    Nat.lt_of_lt_of_le hyd (daysInYear_le _)
  have hmd := monthAndDay_bounds (isLeapYear (civilYear 1970 (t / 86400)).1)
    (civilYear 1970 (t / 86400)).2 hyd2
  have hrem : t % 86400 < 86400 := Nat.mod_lt _ (by omega)
  refine ⟨by omega, by omega, ?_, ?_, ?_⟩
  · have : t % 86400 / 3600 < 24 := by omega
    omega
  · have : t % 86400 / 60 % 60 < 60 := Nat.mod_lt _ (by omega)
    omega
  · have : t % 86400 % 60 < 60 := Nat.mod_lt _ (by omega)
    omega

theorem snapshot_line_length_le (s : SnapInfo) (_hid : s.id < U32_MOD) :
    (snapshot_line s).length ≤ 30 := by
  obtain ⟨b1, b2, b3, b4, b5⟩ := brokenDownUTC_bounds s.created.toNat
  have h0 : (natDecBytes s.id).length ≤ 10 := natDecBytes_length_le s.id
  have h1 := pad2_length _ b1
  have h2 := pad2_length _ b2
  have h3 := pad2_length _ b3
  have h4 := pad2_length _ b4
  have h5 := pad2_length _ b5
  have h6 := pad2_length ((brokenDownUTC s.created.toNat).year % 100)
    (Nat.mod_lt _ (by omega))
  unfold snapshot_line
  dsimp only
  simp only [List.length_append, List.length_cons, List.length_nil]
  omega

theorem expected_listing_nil (snaps : Nat → SnapInfo) :
    expected_listing snaps [] = [] := rfl

theorem expected_listing_cons (snaps : Nat → SnapInfo) (i : Nat) (l : List Nat) :
    expected_listing snaps (i :: l) =
      (if (snaps i).id = 0 then [] else snapshot_line (snaps i)) ++
        expected_listing snaps l := by
  unfold expected_listing
  by_cases h : (snaps i).id = 0
  · rw [if_pos h]
    simp only [List.filterMap_cons, if_pos h]
    rfl
  · rw [if_neg h]
    simp only [List.filterMap_cons, if_neg h]
    rfl

theorem snapshot_list_fold (snaps : Nat → SnapInfo) (l : List Nat) :
    ∀ (buf : List Nat) (pos : Nat), pos = buf.length →
    (∀ i ∈ l, (snaps i).id < U32_MOD) →
    pos + 30 * l.length + 1 ≤ PAGE_SIZE →
    l.foldl (snapshot_list_step snaps) (buf, pos) =
      (buf ++ expected_listing snaps l,
       pos + (expected_listing snaps l).length) := by
  induction l with
  | nil =>
    intro buf pos hpos _ _
    rw [expected_listing_nil]
    simp
  | cons i l ih =>
    intro buf pos hpos hid hbound
    rw [List.foldl_cons, expected_listing_cons]
    by_cases h : (snaps i).id = 0
    · rw [if_pos h]
      have hstep : snapshot_list_step snaps (buf, pos) i = (buf, pos) := by
        unfold snapshot_list_step
        rw [if_pos h]
      rw [hstep, List.nil_append]
      apply ih buf pos hpos (fun j hj => hid j (List.mem_cons_of_mem i hj))
      simp only [List.length_cons] at hbound
      omega
    · rw [if_neg h]
      have hlen : (snapshot_line (snaps i)).length ≤ 30 :=
        snapshot_line_length_le (snaps i) (hid i (List.mem_cons_self i l))
      simp only [List.length_cons] at hbound
      have hP : PAGE_SIZE = 4096 := rfl
      have hstep : snapshot_list_step snaps (buf, pos) i =
          (buf ++ snapshot_line (snaps i),
           pos + (snapshot_line (snaps i)).length) := by
        unfold snapshot_list_step
        rw [if_neg h]
        unfold scnprintf_append
        dsimp only
        rw [if_neg (by omega)]
        have hmin : min (snapshot_line (snaps i)).length (PAGE_SIZE - pos - 1) =
            (snapshot_line (snaps i)).length := by
          rw [Nat.min_def]
          rw [if_pos (by omega)]
        rw [hmin, List.take_of_length_le (Nat.le_refl _)]
      rw [hstep]
      rw [ih (buf ++ snapshot_line (snaps i))
        (pos + (snapshot_line (snaps i)).length)
        (by rw [List.length_append, hpos])
        (fun j hj => hid j (List.mem_cons_of_mem i hj))
        (by omega)]
      rw [List.append_assoc, List.length_append, Nat.add_assoc]

theorem expected_listing_length_le (snaps : Nat → SnapInfo) (l : List Nat)
    (hid : ∀ i ∈ l, (snaps i).id < U32_MOD) :
    (expected_listing snaps l).length ≤ 30 * l.length := by
  induction l with
  | nil =>
    rw [expected_listing_nil]
    simp
  | cons i l ih =>
    rw [expected_listing_cons, List.length_append]
    have h2 := ih (fun j hj => hid j (List.mem_cons_of_mem i hj))
    simp only [List.length_cons]
    by_cases h : (snaps i).id = 0
    · rw [if_pos h]
      simp only [List.length_nil]
      omega
    · rw [if_neg h]
      have := snapshot_line_length_le (snaps i) (hid i (List.mem_cons_self i l))
      omega

/-- C9: ouichefs_snapshot_list emits exactly one snapshot_line per slot
1..31 with nonzero id, in slot order (expected_listing), where
snapshot_line renders "%u: %02d.%02d.%02ld %02d:%02d:%02d\n" over the id
and the broken-down UTC creation time; the returned count equals the
number of bytes written and the whole output fits in one page. -/
theorem C9_snapshot_list (snaps : Nat → SnapInfo)
    (hid : ∀ j, 1 ≤ j → j < OUICHEFS_MAX_SNAPSHOTS → (snaps j).id < U32_MOD) :
    (ouichefs_snapshot_list snaps).1 =
      expected_listing snaps (List.range' 1 (OUICHEFS_MAX_SNAPSHOTS - 1)) ∧
    (ouichefs_snapshot_list snaps).2 =
      (expected_listing snaps (List.range' 1 (OUICHEFS_MAX_SNAPSHOTS - 1))).length ∧
    (ouichefs_snapshot_list snaps).2 ≤ PAGE_SIZE := by
  have hmem : ∀ i ∈ List.range' 1 (OUICHEFS_MAX_SNAPSHOTS - 1),
      (snaps i).id < U32_MOD := by
    intro i hi
    rw [List.mem_range'_1] at hi
    exact hid i hi.1 (by
      have h32 : OUICHEFS_MAX_SNAPSHOTS = 32 := rfl
      omega)
  have hfold := snapshot_list_fold snaps
    (List.range' 1 (OUICHEFS_MAX_SNAPSHOTS - 1)) [] 0 rfl hmem
    (by rw [List.length_range']; decide)
  unfold ouichefs_snapshot_list
  rw [hfold]
  refine ⟨by rw [List.nil_append], by rw [Nat.zero_add], ?_⟩
  dsimp only
  have hlen := expected_listing_length_le snaps
    (List.range' 1 (OUICHEFS_MAX_SNAPSHOTS - 1)) hmem
  rw [List.length_range'] at hlen
  have hP : PAGE_SIZE = 4096 := rfl
  have h31 : OUICHEFS_MAX_SNAPSHOTS - 1 = 31 := rfl
  omega

/-- A table with live snapshots in slots 1 and 3 (ids 1 and 7). -/
def w9Snaps : Nat → SnapInfo := fun j =>
  if j = 1 then ⟨0, 1⟩ else if j = 3 then ⟨90061, 7⟩ else ⟨0, 0⟩

/-- C9 witness: the theorem applied to the concrete table w9Snaps. -/
theorem C9_witness :
    (ouichefs_snapshot_list w9Snaps).1 =
      expected_listing w9Snaps (List.range' 1 (OUICHEFS_MAX_SNAPSHOTS - 1)) ∧
    (ouichefs_snapshot_list w9Snaps).2 =
      (expected_listing w9Snaps (List.range' 1 (OUICHEFS_MAX_SNAPSHOTS - 1))).length ∧
    (ouichefs_snapshot_list w9Snaps).2 ≤ PAGE_SIZE :=
  C9_snapshot_list w9Snaps (by decide)
